import Mathlib

set_option maxHeartbeats 1000000

namespace SQLPulse

/-!
Shallow embedding of the SQLPulse structural diff core: the schema data
model and DDL renderers (internal/core/domain/schema.go), the difference
model and its renderers (internal/core/domain/connection.go), and the
schema comparator (internal/services, SchemaComparator).

Go string-keyed maps are modelled as association lists built by repeated
insertion; Go's map iteration order is unspecified, and the embedding
fixes first-insertion order, which is one admissible execution of the
source.
-/

def lookupA {α : Type} (k : String) : List (String × α) → Option α
  | [] => none
  | (k', v) :: rest => if k = k' then some v else lookupA k rest

def insertA {α : Type} (k : String) (v : α) : List (String × α) → List (String × α)
  | [] => [(k, v)]
  | (k', v') :: rest => if k' = k then (k', v) :: rest else (k', v') :: insertA k v rest

def toMapA {α : Type} (key : α → String) (l : List α) : List (String × α) :=
  l.foldl (fun m x => insertA (key x) x m) []

def keysA {α : Type} (m : List (String × α)) : List String :=
  m.map Prod.fst

theorem lookupA_isSome_iff {α : Type} (k : String) (m : List (String × α)) :
    (lookupA k m).isSome = true ↔ k ∈ keysA m := by
  induction m with
  | nil => simp [lookupA, keysA]
  | cons p rest ih =>
    obtain ⟨k', v⟩ := p
    by_cases h : k = k' <;> simp [lookupA, keysA, h] at ih ⊢
    exact ih

theorem lookupA_isSome_of_mem {α : Type} {k : String} {v : α} {m : List (String × α)}
    (h : (k, v) ∈ m) : (lookupA k m).isSome = true := by
  rw [lookupA_isSome_iff]
  exact List.mem_map_of_mem Prod.fst h

theorem lookupA_eq_none_of_not_mem {α : Type} {k : String} {m : List (String × α)}
    (h : k ∉ keysA m) : lookupA k m = none := by
  cases hl : lookupA k m with
  | none => rfl
  | some v =>
    exfalso
    apply h
    rw [← lookupA_isSome_iff k m, hl]
    rfl

theorem mem_keysA_insertA {α : Type} (a k : String) (v : α) (m : List (String × α)) :
    a ∈ keysA (insertA k v m) ↔ a ∈ keysA m ∨ a = k := by
  induction m with
  | nil => simp [insertA, keysA]
  | cons p rest ih =>
    obtain ⟨k', v'⟩ := p
    by_cases h : k' = k
    · subst h
      simp [insertA, keysA] at ih ⊢
      tauto
    · simp [insertA, keysA, h] at ih ⊢
      tauto

theorem nodup_keysA_insertA {α : Type} (k : String) (v : α) (m : List (String × α))
    (h : (keysA m).Nodup) : (keysA (insertA k v m)).Nodup := by
  induction m with
  | nil => simp [insertA, keysA]
  | cons p rest ih =>
    obtain ⟨k', v'⟩ := p
    have hkeys : keysA ((k', v') :: rest) = k' :: keysA rest := rfl
    rw [hkeys, List.nodup_cons] at h
    by_cases hk : k' = k
    · subst hk
      rw [insertA, if_pos rfl]
      rw [show keysA ((k', v) :: rest) = k' :: keysA rest from rfl, List.nodup_cons]
      exact h
    · rw [insertA, if_neg hk]
      rw [show keysA ((k', v') :: insertA k v rest) = k' :: keysA (insertA k v rest) from rfl,
        List.nodup_cons]
      refine ⟨?_, ih h.2⟩
      intro hmem
      rcases (mem_keysA_insertA k' k v rest).mp hmem with hin | rfl
      · exact h.1 hin
      · exact hk rfl

theorem nodup_keysA_toMapA {α : Type} (key : α → String) (l : List α) :
    (keysA (toMapA key l)).Nodup := by
  have gen : ∀ (l : List α) (m : List (String × α)), (keysA m).Nodup →
      (keysA (l.foldl (fun m x => insertA (key x) x m) m)).Nodup := by
    intro l
    induction l with
    | nil => intro m hm; simpa using hm
    | cons x rest ih =>
      intro m hm
      simpa using ih _ (nodup_keysA_insertA (key x) x m hm)
  simpa [toMapA] using gen l [] (by simp [keysA])

theorem mem_keysA_toMapA {α : Type} (key : α → String) (l : List α) (a : String) :
    a ∈ keysA (toMapA key l) ↔ a ∈ l.map key := by
  have gen : ∀ (l : List α) (m : List (String × α)),
      (a ∈ keysA (l.foldl (fun m x => insertA (key x) x m) m) ↔
        a ∈ keysA m ∨ a ∈ l.map key) := by
    intro l
    induction l with
    | nil => intro m; simp
    | cons x rest ih =>
      intro m
      rw [List.foldl_cons, ih (insertA (key x) x m), mem_keysA_insertA]
      simp
      tauto
  rw [toMapA, gen l []]
  simp [keysA]

theorem insertA_of_not_mem {α : Type} {k : String} (v : α) {m : List (String × α)}
    (h : k ∉ keysA m) : insertA k v m = m ++ [(k, v)] := by
  induction m with
  | nil => simp [insertA]
  | cons p rest ih =>
    obtain ⟨k', v'⟩ := p
    simp [keysA] at h
    push_neg at h
    simp [insertA, Ne.symm h.1]
    exact ih (by simp [keysA]; exact h.2)

theorem toMapA_append_single {α : Type} (key : α → String) (l : List α) (t : α)
    (h : key t ∉ l.map key) :
    toMapA key (l ++ [t]) = toMapA key l ++ [(key t, t)] := by
  rw [toMapA, List.foldl_append]
  simp only [List.foldl_cons, List.foldl_nil]
  rw [← toMapA]
  apply insertA_of_not_mem
  rw [mem_keysA_toMapA]
  exact h

theorem lookupA_of_mem_nodup {α : Type} {k : String} {v : α} {m : List (String × α)}
    (hn : (keysA m).Nodup) (h : (k, v) ∈ m) : lookupA k m = some v := by
  induction m with
  | nil => simp at h
  | cons p rest ih =>
    obtain ⟨k', v'⟩ := p
    rw [show keysA ((k', v') :: rest) = k' :: keysA rest from rfl, List.nodup_cons] at hn
    rcases List.mem_cons.mp h with heq | hmem
    · obtain ⟨rfl, rfl⟩ := Prod.mk.injEq .. ▸ heq
      simp [lookupA]
    · have hk : k ≠ k' := by
        rintro rfl
        exact hn.1 (List.mem_map_of_mem Prod.fst hmem)
      simp only [lookupA, if_neg hk]
      exact ih hn.2 hmem

theorem lookupA_append {α : Type} (k : String) (m₁ m₂ : List (String × α)) :
    lookupA k (m₁ ++ m₂) =
      match lookupA k m₁ with
      | some v => some v
      | none => lookupA k m₂ := by
  induction m₁ with
  | nil => simp [lookupA]
  | cons p rest ih =>
    obtain ⟨k', v⟩ := p
    by_cases h : k = k' <;> simp [lookupA, h, ih]

/-- Accumulating loop over a list that appends an optional record per element,
mirroring the Go pattern of appending to a result slice inside a loop. -/
def collectD {α β : Type} (f : α → Option β) : List α → List β
  | [] => []
  | x :: xs =>
    match f x with
    | some d => d :: collectD f xs
    | none => collectD f xs

/-- Accumulating loop over a list that appends a sublist of records per
element, mirroring a Go loop that calls a helper appending several diffs. -/
def concatMapD {α β : Type} (f : α → List β) : List α → List β
  | [] => []
  | x :: xs => f x ++ concatMapD f xs

theorem collectD_append {α β : Type} (f : α → Option β) (l₁ l₂ : List α) :
    collectD f (l₁ ++ l₂) = collectD f l₁ ++ collectD f l₂ := by
  induction l₁ with
  | nil => simp [collectD]
  | cons x xs ih =>
    simp only [List.cons_append, collectD]
    cases f x <;> simp [ih]

theorem collectD_eq_nil {α β : Type} (f : α → Option β) (l : List α)
    (h : ∀ x ∈ l, f x = none) : collectD f l = [] := by
  induction l with
  | nil => rfl
  | cons x xs ih =>
    have hx := h x (by simp)
    simp only [collectD, hx]
    exact ih fun y hy => h y (by simp [hy])

theorem mem_collectD {α β : Type} {f : α → Option β} {l : List α} {d : β}
    (h : d ∈ collectD f l) : ∃ x, x ∈ l ∧ f x = some d := by
  induction l with
  | nil => simp [collectD] at h
  | cons x xs ih =>
    simp only [collectD] at h
    cases hfx : f x with
    | some d' =>
      rw [hfx] at h
      rcases List.mem_cons.mp h with rfl | hmem
      · exact ⟨x, by simp, hfx⟩
      · obtain ⟨y, hy, hfy⟩ := ih hmem
        exact ⟨y, by simp [hy], hfy⟩
    | none =>
      rw [hfx] at h
      obtain ⟨y, hy, hfy⟩ := ih h
      exact ⟨y, by simp [hy], hfy⟩

theorem concatMapD_append {α β : Type} (f : α → List β) (l₁ l₂ : List α) :
    concatMapD f (l₁ ++ l₂) = concatMapD f l₁ ++ concatMapD f l₂ := by
  induction l₁ with
  | nil => simp [concatMapD]
  | cons x xs ih => simp [concatMapD, ih]

theorem concatMapD_eq_nil {α β : Type} (f : α → List β) (l : List α)
    (h : ∀ x ∈ l, f x = []) : concatMapD f l = [] := by
  induction l with
  | nil => rfl
  | cons x xs ih =>
    simp only [concatMapD, h x (by simp)]
    simpa using ih fun y hy => h y (by simp [hy])

theorem mem_concatMapD {α β : Type} {f : α → List β} {l : List α} {d : β}
    (h : d ∈ concatMapD f l) : ∃ x, x ∈ l ∧ d ∈ f x := by
  induction l with
  | nil => simp [concatMapD] at h
  | cons x xs ih =>
    simp only [concatMapD] at h
    rcases List.mem_append.mp h with hx | hmem
    · exact ⟨x, by simp, hx⟩
    · obtain ⟨y, hy, hfy⟩ := ih hmem
      exact ⟨y, by simp [hy], hfy⟩

/-!
Schema data model, translated from internal/core/domain/schema.go.
Go int and int64 fields become Int; Go zero values become field defaults.
-/

structure Column where
  Name : String := ""
  OrdinalPosition : Int := 0
  DataType : String := ""
  MaxLength : Int := 0
  Precision : Int := 0
  Scale : Int := 0
  IsNullable : Bool := false
  HasDefault : Bool := false
  DefaultValue : String := ""
  IsIdentity : Bool := false
  IdentitySeed : Int := 0
  IdentityIncrement : Int := 0
  IsComputed : Bool := false
  ComputedDefinition : String := ""
  Collation : String := ""
deriving DecidableEq, Repr

/-- Test that pre is a prefix of s, translating Go's strings.HasPrefix;
written over the character lists so that it evaluates by computation. -/
def hasPrefixGo (s pre : String) : Bool :=
  pre.data.isPrefixOf s.data

/-- Upper-casing of a string, translating Go's strings.ToUpper for the
ASCII letters that appear in SQL type names; written over the character
lists so that it evaluates by computation. -/
def toUpperGo (s : String) : String :=
  ⟨s.data.map Char.toUpper⟩

/-- Rendering of a column definition, translated from Column.GenerateSQL in
schema.go. Go integer division on int truncates toward zero, hence Int.tdiv. -/
def Column.GenerateSQL (c : Column) : String :=
  let s0 := "[" ++ c.Name ++ "] "
  if c.IsComputed then s0 ++ "AS " ++ c.ComputedDefinition
  else
    let s1 := s0 ++ c.DataType
    let up := toUpperGo c.DataType
    let s2 :=
      if up = "VARCHAR" ∨ up = "NVARCHAR" ∨ up = "CHAR" ∨ up = "NCHAR" ∨
          up = "VARBINARY" ∨ up = "BINARY" then
        if c.MaxLength = -1 then s1 ++ "(MAX)"
        else if hasPrefixGo up "N" then s1 ++ "(" ++ toString (c.MaxLength.tdiv 2) ++ ")"
        else s1 ++ "(" ++ toString c.MaxLength ++ ")"
      else if up = "DECIMAL" ∨ up = "NUMERIC" then
        s1 ++ "(" ++ toString c.Precision ++ "," ++ toString c.Scale ++ ")"
      else if up = "DATETIME2" ∨ up = "DATETIMEOFFSET" ∨ up = "TIME" then
        if c.Scale > 0 then s1 ++ "(" ++ toString c.Scale ++ ")" else s1
      else s1
    let s3 :=
      if c.IsIdentity then
        s2 ++ " IDENTITY(" ++ toString c.IdentitySeed ++ "," ++
          toString c.IdentityIncrement ++ ")"
      else s2
    let s4 := if c.IsNullable then s3 ++ " NULL" else s3 ++ " NOT NULL"
    if c.HasDefault ∧ c.DefaultValue ≠ "" then s4 ++ " DEFAULT " ++ c.DefaultValue else s4

structure IndexColumn where
  Name : String := ""
  Position : Int := 0
  IsDescending : Bool := false
  IsIncluded : Bool := false
deriving DecidableEq, Repr

structure Index where
  Name : String := ""
  SchemaName : String := ""
  TableName : String := ""
  IsPrimaryKey : Bool := false
  IsUnique : Bool := false
  IsClustered : Bool := false
  IsDisabled : Bool := false
  FilterDefinition : String := ""
  Columns : List IndexColumn := []
deriving DecidableEq, Repr

/-- Rendering of a CREATE INDEX statement, translated from Index.GenerateSQL
in schema.go; the single Go loop splitting key and included columns is
rendered as two order-preserving filters. -/
def Index.GenerateSQL (i : Index) : String :=
  if i.IsPrimaryKey then ""
  else
    let keyCols := (i.Columns.filter (fun c => !c.IsIncluded)).map
      (fun c => "    [" ++ c.Name ++ "]" ++ (if c.IsDescending then " DESC" else ""))
    let includeCols := (i.Columns.filter (fun c => c.IsIncluded)).map
      (fun c => "    [" ++ c.Name ++ "]")
    "CREATE " ++ (if i.IsUnique then "UNIQUE " else "") ++
      (if i.IsClustered then "CLUSTERED " else "NONCLUSTERED ") ++
      "INDEX [" ++ i.Name ++ "] ON [" ++ i.SchemaName ++ "].[" ++ i.TableName ++ "] (\n" ++
      String.intercalate ",\n" keyCols ++ "\n)" ++
      (if includeCols ≠ [] then
        " INCLUDE (\n" ++ String.intercalate ",\n" includeCols ++ "\n)"
      else "") ++
      (if i.FilterDefinition ≠ "" then " WHERE " ++ i.FilterDefinition else "")

structure ForeignKeyColumn where
  ColumnName : String := ""
  ReferencedColumnName : String := ""
deriving DecidableEq, Repr

structure ForeignKey where
  Name : String := ""
  SchemaName : String := ""
  TableName : String := ""
  ReferencedSchemaName : String := ""
  ReferencedTableName : String := ""
  DeleteAction : String := ""
  UpdateAction : String := ""
  Columns : List ForeignKeyColumn := []
deriving DecidableEq, Repr

/-- Replacement of every underscore by a space, translating the Go call
strings.ReplaceAll(s, "_", " ") used for referential action names. -/
def replaceUnderscores (s : String) : String :=
  s.map (fun ch => if ch = '_' then ' ' else ch)

/-- Rendering of a foreign key constraint, translated from
ForeignKey.GenerateSQL in schema.go. -/
def ForeignKey.GenerateSQL (fk : ForeignKey) : String :=
  "ALTER TABLE [" ++ fk.SchemaName ++ "].[" ++ fk.TableName ++ "] ADD CONSTRAINT [" ++
    fk.Name ++ "] FOREIGN KEY (\n" ++
    String.intercalate ",\n" (fk.Columns.map (fun c => "    [" ++ c.ColumnName ++ "]")) ++
    "\n) REFERENCES [" ++ fk.ReferencedSchemaName ++ "].[" ++ fk.ReferencedTableName ++
    "] (\n" ++
    String.intercalate ",\n"
      (fk.Columns.map (fun c => "    [" ++ c.ReferencedColumnName ++ "]")) ++
    "\n)" ++
    (if fk.DeleteAction ≠ "" ∧ fk.DeleteAction ≠ "NO_ACTION" then
      " ON DELETE " ++ replaceUnderscores fk.DeleteAction
    else "") ++
    (if fk.UpdateAction ≠ "" ∧ fk.UpdateAction ≠ "NO_ACTION" then
      " ON UPDATE " ++ replaceUnderscores fk.UpdateAction
    else "")

structure CheckConstraint where
  Name : String := ""
  SchemaName : String := ""
  TableName : String := ""
  Definition : String := ""
  IsDisabled : Bool := false
deriving DecidableEq, Repr

/-- Rendering of a check constraint, translated from
CheckConstraint.GenerateSQL in schema.go. -/
def CheckConstraint.GenerateSQL (cc : CheckConstraint) : String :=
  "ALTER TABLE [" ++ cc.SchemaName ++ "].[" ++ cc.TableName ++ "] ADD CONSTRAINT [" ++
    cc.Name ++ "] CHECK " ++ cc.Definition

structure Table where
  SchemaName : String := ""
  Name : String := ""
  Columns : List Column := []
  PrimaryKey : Option Index := none
  Indexes : List Index := []
  ForeignKeys : List ForeignKey := []
  CheckConstraints : List CheckConstraint := []
deriving DecidableEq, Repr

structure View where
  SchemaName : String := ""
  Name : String := ""
  Definition : String := ""
deriving DecidableEq, Repr

structure StoredProcedure where
  SchemaName : String := ""
  Name : String := ""
  Definition : String := ""
deriving DecidableEq, Repr

structure Function where
  SchemaName : String := ""
  Name : String := ""
  Definition : String := ""
  FuncType : String := ""
deriving DecidableEq, Repr

structure Trigger where
  SchemaName : String := ""
  TableName : String := ""
  Name : String := ""
  Definition : String := ""
  IsDisabled : Bool := false
deriving DecidableEq, Repr

structure Schema where
  Name : String := ""
  Owner : String := ""
deriving DecidableEq, Repr

structure DatabaseSchema where
  DatabaseName : String := ""
  Schemas : List Schema := []
  Tables : List Table := []
  Views : List View := []
  StoredProcedures : List StoredProcedure := []
  Functions : List Function := []
  Triggers : List Trigger := []
deriving DecidableEq, Repr

/-!
Difference model, renderers and options, translated from
internal/core/domain/connection.go. Go's DiffType and DiffCategory are
string types; they are modelled as String with the same constants. The
Go field Difference.Type is spelled Type' because Type is a Lean keyword.
-/

def DiffAdded : String := "ADDED"
def DiffRemoved : String := "REMOVED"
def DiffModified : String := "MODIFIED"

def DiffCategorySchema : String := "SCHEMA"
def DiffCategoryTable : String := "TABLE"
def DiffCategoryColumn : String := "COLUMN"
def DiffCategoryIndex : String := "INDEX"
def DiffCategoryForeignKey : String := "FOREIGN_KEY"
def DiffCategoryConstraint : String := "CONSTRAINT"
def DiffCategoryView : String := "VIEW"
def DiffCategoryProcedure : String := "PROCEDURE"
def DiffCategoryFunction : String := "FUNCTION"
def DiffCategoryTrigger : String := "TRIGGER"

structure Difference where
  Type' : String := ""
  Category : String := ""
  ObjectName : String := ""
  PropertyName : String := ""
  SourceValue : String := ""
  TargetValue : String := ""
  Description : String := ""
  MigrationSQL : String := ""
deriving DecidableEq, Repr

/-- Git-diff style line for one difference, translated from
Difference.String in connection.go; the markers carry the ANSI color
escape sequences emitted by the Go code. -/
def Difference.String (d : Difference) : String :=
  let marker :=
    if d.Type' = DiffAdded then "\x1b[32m+\x1b[0m"
    else if d.Type' = DiffRemoved then "\x1b[31m-\x1b[0m"
    else if d.Type' = DiffModified then "\x1b[33m~\x1b[0m"
    else ""
  marker ++ " [" ++ d.Category ++ "] " ++ d.ObjectName ++ ": " ++ d.Description

structure DiffSummary where
  TotalDifferences : Nat := 0
  Added : Nat := 0
  Removed : Nat := 0
  Modified : Nat := 0
  ByCategory : List (String × Nat) := []
deriving DecidableEq, Repr

structure DiffResult where
  SourceDatabase : String := ""
  TargetDatabase : String := ""
  Differences : List Difference := []
  Summary : DiffSummary := {}
deriving DecidableEq, Repr

def DiffResult.HasDifferences (r : DiffResult) : Bool :=
  r.Differences.length > 0

def DiffResult.FilterByType (r : DiffResult) (diffType : String) : List Difference :=
  r.Differences.filter (fun d => d.Type' = diffType)

def DiffResult.FilterByCategory (r : DiffResult) (category : String) : List Difference :=
  r.Differences.filter (fun d => d.Category = category)

/-- Fixed category sequence used by the migration generator, translated
from the categories slice in DiffResult.GenerateMigrationScript. -/
def categoriesOrder : List String :=
  [DiffCategorySchema, DiffCategoryTable, DiffCategoryColumn, DiffCategoryIndex,
   DiffCategoryForeignKey, DiffCategoryConstraint, DiffCategoryView,
   DiffCategoryProcedure, DiffCategoryFunction, DiffCategoryTrigger]

/-- Per-difference fragment of the migration script: a comment, the
migration SQL and a batch terminator, or nothing when the fragment is
empty, translated from the inner loop of GenerateMigrationScript. -/
def migrationFragment (d : Difference) : String :=
  if d.MigrationSQL ≠ "" then
    "-- " ++ d.Description ++ "\n" ++ d.MigrationSQL ++ "\nGO\n\n"
  else ""

/-- Per-category block of the migration script: skipped when the category
has no differences, otherwise a banner followed by the per-difference
fragments, translated from the outer loop of GenerateMigrationScript. -/
def categoryBlock (r : DiffResult) (cat : String) : String :=
  let diffs := r.FilterByCategory cat
  if diffs = [] then ""
  else
    "-- " ++ cat ++ " Changes\n" ++
    "-- " ++ "----------------------------------------" ++ "\n\n" ++
    String.join (diffs.map migrationFragment)

/-- Migration script assembly, translated from
DiffResult.GenerateMigrationScript in connection.go. -/
def DiffResult.GenerateMigrationScript (r : DiffResult) : String :=
  "-- ============================================\n" ++
  "-- Migration Script\n" ++
  "-- From: " ++ r.SourceDatabase ++ "\n" ++
  "-- To:   " ++ r.TargetDatabase ++ "\n" ++
  "-- ============================================\n\n" ++
  String.join (categoriesOrder.map (categoryBlock r))

/-- Body loop of PrintGitStyle: emits a category header whenever the
current difference's category differs from the previous one, then the
difference line, translated from the loop in DiffResult.PrintGitStyle. -/
def printGitLoop (currentCategory : String) : List Difference → String
  | [] => ""
  | d :: rest =>
    if d.Category ≠ currentCategory then
      "\n@@ " ++ d.Category ++ " @@\n" ++ d.String ++ "\n" ++ printGitLoop d.Category rest
    else
      d.String ++ "\n" ++ printGitLoop currentCategory rest

/-- Git-diff style report, translated from DiffResult.PrintGitStyle in
connection.go; the running currentCategory starts as the empty string. -/
def DiffResult.PrintGitStyle (r : DiffResult) : String :=
  "diff --sqlpulse a/" ++ r.SourceDatabase ++ " b/" ++ r.TargetDatabase ++ "\n" ++
  "--- a/" ++ r.SourceDatabase ++ "\n" ++
  "+++ b/" ++ r.TargetDatabase ++ "\n" ++
  "\n" ++
  printGitLoop "" r.Differences

/-- Increment of a category counter in the summary's by-category map,
modelling the Go map increment Summary.ByCategory[d.Category]++. -/
def bumpCategory (cat : String) : List (String × Nat) → List (String × Nat)
  | [] => [(cat, 1)]
  | (c, n) :: rest =>
    if c = cat then (c, n + 1) :: rest else (c, n) :: bumpCategory cat rest

/-- One iteration of the summary loop in DiffResult.CalculateSummary: the
total and category counters always advance, and the per-kind counter
matching the difference's type advances (a type outside the three
constants advances none, as in the Go switch without default). -/
def summaryStep (s : DiffSummary) (d : Difference) : DiffSummary :=
  let s := { s with
    TotalDifferences := s.TotalDifferences + 1,
    ByCategory := bumpCategory d.Category s.ByCategory }
  if d.Type' = DiffAdded then { s with Added := s.Added + 1 }
  else if d.Type' = DiffRemoved then { s with Removed := s.Removed + 1 }
  else if d.Type' = DiffModified then { s with Modified := s.Modified + 1 }
  else s

/-- Summary computation, translated from DiffResult.CalculateSummary in
connection.go, as a function from the difference list to the summary. -/
def CalculateSummary (diffs : List Difference) : DiffSummary :=
  diffs.foldl summaryStep
    { TotalDifferences := 0, Added := 0, Removed := 0, Modified := 0, ByCategory := [] }

structure DiffOptions where
  IncludeTables : Bool := false
  IncludeViews : Bool := false
  IncludeProcedures : Bool := false
  IncludeFunctions : Bool := false
  IncludeTriggers : Bool := false
  IncludeIndexes : Bool := false
  IncludeForeignKeys : Bool := false
  IncludeConstraints : Bool := false
  SchemaFilter : List String := []
  TableFilter : List String := []
  IgnoreCollation : Bool := false
  IgnoreWhitespace : Bool := false
deriving DecidableEq, Repr

/-- Default comparison options, translated from DefaultDiffOptions. -/
def DefaultDiffOptions : DiffOptions :=
  { IncludeTables := true, IncludeViews := true, IncludeProcedures := true,
    IncludeFunctions := true, IncludeTriggers := true, IncludeIndexes := true,
    IncludeForeignKeys := true, IncludeConstraints := true,
    IgnoreCollation := false, IgnoreWhitespace := true }

/-!
Whitespace normalization, translated from SchemaComparator.normalizeWhitespace:
the Go code replaces every run matching the RE2 class \s (tab, newline,
form feed, carriage return, space) by a single space and then trims
Unicode whitespace from both ends with strings.TrimSpace.
-/

def isWS (c : Char) : Bool :=
  c == ' ' || c == '\t' || c == '\n' || c == '\r' || c == '\x0c'

/-- Character class of Go's unicode.IsSpace, used by strings.TrimSpace. -/
def unicodeIsSpace (c : Char) : Bool :=
  isWS c || c == '\x0b' || c == '\x85' || c == '\xa0' || c == ' ' ||
  c == ' ' || c == ' ' || c == ' ' || c == ' ' ||
  c == ' ' || c == ' ' || c == ' ' || c == ' ' ||
  c == ' ' || c == ' ' || c == ' ' || c == ' ' ||
  c == ' ' || c == ' ' || c == ' ' || c == '　'

/-- Replacement of each maximal run of \s characters by one space; the
Bool flag records whether the previous character was in the run. -/
def collapseWS : Bool → List Char → List Char
  | _, [] => []
  | prev, c :: rest =>
    if isWS c then
      if prev then collapseWS true rest else ' ' :: collapseWS true rest
    else c :: collapseWS false rest

def trimLeftWS (l : List Char) : List Char :=
  l.dropWhile unicodeIsSpace

def trimRightWS (l : List Char) : List Char :=
  (trimLeftWS l.reverse).reverse

def trimSpace (l : List Char) : List Char :=
  trimRightWS (trimLeftWS l)

/-- Normalization used before definition equality, translated from
SchemaComparator.normalizeWhitespace. -/
def normalizeWhitespace (s : String) : String :=
  ⟨trimSpace (collapseWS false s.data)⟩

/-- Definition-text equality, translated from
SchemaComparator.definitionsEqual. -/
def definitionsEqual (opts : DiffOptions) (source target : String) : Bool :=
  if opts.IgnoreWhitespace then
    normalizeWhitespace source == normalizeWhitespace target
  else source == target

/-!
Schema comparator, translated from the services section of the repository
(SchemaComparator). The comparator's options receiver becomes an explicit
opts argument; appends into the shared result slice become list
concatenation in the same order.
-/

def formatTableName (t : Table) : String :=
  "[" ++ t.SchemaName ++ "].[" ++ t.Name ++ "]"

def tablesToMap (tables : List Table) : List (String × Table) :=
  toMapA formatTableName tables

def columnsToMap (columns : List Column) : List (String × Column) :=
  toMapA Column.Name columns

def indexesToMap (indexes : List Index) : List (String × Index) :=
  toMapA Index.Name indexes

def foreignKeysToMap (fks : List ForeignKey) : List (String × ForeignKey) :=
  toMapA ForeignKey.Name fks

def checkConstraintsToMap (ccs : List CheckConstraint) : List (String × CheckConstraint) :=
  toMapA CheckConstraint.Name ccs

def viewsToMap (views : List View) : List (String × View) :=
  toMapA (fun v => "[" ++ v.SchemaName ++ "].[" ++ v.Name ++ "]") views

def proceduresToMap (procs : List StoredProcedure) : List (String × StoredProcedure) :=
  toMapA (fun p => "[" ++ p.SchemaName ++ "].[" ++ p.Name ++ "]") procs

def functionsToMap (funcs : List Function) : List (String × Function) :=
  toMapA (fun f => "[" ++ f.SchemaName ++ "].[" ++ f.Name ++ "]") funcs

def triggersToMap (triggers : List Trigger) : List (String × Trigger) :=
  toMapA (fun t => "[" ++ t.SchemaName ++ "].[" ++ t.TableName ++ "].[" ++ t.Name ++ "]")
    triggers

def indexColumnsToString (cols : List IndexColumn) : String :=
  String.intercalate ", " (cols.map (fun col =>
    col.Name ++ (if col.IsDescending then " DESC" else "") ++
      (if col.IsIncluded then " (INCLUDE)" else "")))

/-- Column property comparison, translated from
SchemaComparator.compareColumnDetails; each differing property appends
one Modified record in the source's order. -/
def compareColumnDetails (opts : DiffOptions) (tableName : String)
    (source target : Column) : List Difference :=
  let colName := tableName ++ "." ++ source.Name
  (if source.DataType ≠ target.DataType then
    [{ Type' := DiffModified, Category := DiffCategoryColumn, ObjectName := colName,
       PropertyName := "DataType", SourceValue := source.DataType,
       TargetValue := target.DataType,
       Description := "Data type differs: " ++ source.DataType ++ " vs " ++ target.DataType,
       MigrationSQL := "ALTER TABLE " ++ tableName ++ " ALTER COLUMN [" ++ source.Name ++
         "] " ++ source.DataType ++ ";" }]
  else []) ++
  (if source.MaxLength ≠ target.MaxLength then
    [{ Type' := DiffModified, Category := DiffCategoryColumn, ObjectName := colName,
       PropertyName := "MaxLength", SourceValue := toString source.MaxLength,
       TargetValue := toString target.MaxLength,
       Description := "Max length differs: " ++ toString source.MaxLength ++ " vs " ++
         toString target.MaxLength }]
  else []) ++
  (if source.Precision ≠ target.Precision ∨ source.Scale ≠ target.Scale then
    [{ Type' := DiffModified, Category := DiffCategoryColumn, ObjectName := colName,
       PropertyName := "Precision/Scale",
       SourceValue := "(" ++ toString source.Precision ++ "," ++ toString source.Scale ++ ")",
       TargetValue := "(" ++ toString target.Precision ++ "," ++ toString target.Scale ++ ")",
       Description := "Precision/Scale differs: (" ++ toString source.Precision ++ "," ++
         toString source.Scale ++ ") vs (" ++ toString target.Precision ++ "," ++
         toString target.Scale ++ ")" }]
  else []) ++
  (if source.IsNullable ≠ target.IsNullable then
    let srcNull := if source.IsNullable then "NULL" else "NOT NULL"
    let tgtNull := if target.IsNullable then "NULL" else "NOT NULL"
    [{ Type' := DiffModified, Category := DiffCategoryColumn, ObjectName := colName,
       PropertyName := "Nullability", SourceValue := srcNull, TargetValue := tgtNull,
       Description := "Nullability differs: " ++ srcNull ++ " vs " ++ tgtNull }]
  else []) ++
  (if source.IsIdentity ≠ target.IsIdentity then
    [{ Type' := DiffModified, Category := DiffCategoryColumn, ObjectName := colName,
       PropertyName := "Identity", SourceValue := toString source.IsIdentity,
       TargetValue := toString target.IsIdentity,
       Description := "Identity property differs" }]
  else []) ++
  (if ¬opts.IgnoreCollation ∧ source.Collation ≠ target.Collation then
    [{ Type' := DiffModified, Category := DiffCategoryColumn, ObjectName := colName,
       PropertyName := "Collation", SourceValue := source.Collation,
       TargetValue := target.Collation,
       Description := "Collation differs: " ++ source.Collation ++ " vs " ++
         target.Collation }]
  else [])

/-- Column collection comparison, translated from
SchemaComparator.compareColumns: removed, then added, then matched pairs. -/
def compareColumns (opts : DiffOptions) (tableName : String)
    (source target : List Column) : List Difference :=
  collectD (fun p =>
    if (lookupA p.1 (columnsToMap target)).isSome then none
    else some
      { Type' := DiffRemoved, Category := DiffCategoryColumn,
        ObjectName := tableName ++ "." ++ p.1,
        Description := "Column [" ++ p.1 ++ "] missing in target",
        MigrationSQL := "ALTER TABLE " ++ tableName ++ " ADD " ++ p.2.GenerateSQL ++ ";" })
    (columnsToMap source) ++
  collectD (fun p =>
    if (lookupA p.1 (columnsToMap source)).isSome then none
    else some
      { Type' := DiffAdded, Category := DiffCategoryColumn,
        ObjectName := tableName ++ "." ++ p.1,
        Description := "Column [" ++ p.1 ++ "] exists only in target",
        MigrationSQL := "ALTER TABLE " ++ tableName ++ " DROP COLUMN [" ++ p.1 ++ "];" })
    (columnsToMap target) ++
  concatMapD (fun p =>
    match lookupA p.1 (columnsToMap target) with
    | some tgtCol => compareColumnDetails opts tableName p.2 tgtCol
    | none => []) (columnsToMap source)

/-- Index property comparison, translated from
SchemaComparator.compareIndexDetails. -/
def compareIndexDetails (tableName : String) (source target : Index) : List Difference :=
  let idxName := tableName ++ "." ++ source.Name
  (if source.IsUnique ≠ target.IsUnique then
    [{ Type' := DiffModified, Category := DiffCategoryIndex, ObjectName := idxName,
       PropertyName := "IsUnique", SourceValue := toString source.IsUnique,
       TargetValue := toString target.IsUnique,
       Description := "Unique property differs" }]
  else []) ++
  (if source.IsClustered ≠ target.IsClustered then
    [{ Type' := DiffModified, Category := DiffCategoryIndex, ObjectName := idxName,
       PropertyName := "IsClustered", SourceValue := toString source.IsClustered,
       TargetValue := toString target.IsClustered,
       Description := "Clustered property differs" }]
  else []) ++
  (if indexColumnsToString source.Columns ≠ indexColumnsToString target.Columns then
    [{ Type' := DiffModified, Category := DiffCategoryIndex, ObjectName := idxName,
       PropertyName := "Columns", SourceValue := indexColumnsToString source.Columns,
       TargetValue := indexColumnsToString target.Columns,
       Description := "Index columns differ: [" ++ indexColumnsToString source.Columns ++
         "] vs [" ++ indexColumnsToString target.Columns ++ "]" }]
  else [])

/-- Index collection comparison, translated from
SchemaComparator.compareIndexes. -/
def compareIndexes (tableName : String) (source target : List Index) : List Difference :=
  collectD (fun p =>
    if (lookupA p.1 (indexesToMap target)).isSome then none
    else some
      { Type' := DiffRemoved, Category := DiffCategoryIndex,
        ObjectName := tableName ++ "." ++ p.1,
        Description := "Index [" ++ p.1 ++ "] missing in target",
        MigrationSQL := p.2.GenerateSQL ++ ";" }) (indexesToMap source) ++
  collectD (fun p =>
    if (lookupA p.1 (indexesToMap source)).isSome then none
    else some
      { Type' := DiffAdded, Category := DiffCategoryIndex,
        ObjectName := tableName ++ "." ++ p.1,
        Description := "Index [" ++ p.1 ++ "] exists only in target",
        MigrationSQL := "DROP INDEX [" ++ p.1 ++ "] ON " ++ tableName ++ ";" })
    (indexesToMap target) ++
  concatMapD (fun p =>
    match lookupA p.1 (indexesToMap target) with
    | some tgtIdx => compareIndexDetails tableName p.2 tgtIdx
    | none => []) (indexesToMap source)

/-- Foreign key comparison (existence only), translated from
SchemaComparator.compareForeignKeys. -/
def compareForeignKeys (tableName : String) (source target : List ForeignKey) :
    List Difference :=
  collectD (fun p =>
    if (lookupA p.1 (foreignKeysToMap target)).isSome then none
    else some
      { Type' := DiffRemoved, Category := DiffCategoryForeignKey,
        ObjectName := tableName ++ "." ++ p.1,
        Description := "Foreign key [" ++ p.1 ++ "] missing in target",
        MigrationSQL := p.2.GenerateSQL ++ ";" }) (foreignKeysToMap source) ++
  collectD (fun p =>
    if (lookupA p.1 (foreignKeysToMap source)).isSome then none
    else some
      { Type' := DiffAdded, Category := DiffCategoryForeignKey,
        ObjectName := tableName ++ "." ++ p.1,
        Description := "Foreign key [" ++ p.1 ++ "] exists only in target",
        MigrationSQL := "ALTER TABLE " ++ tableName ++ " DROP CONSTRAINT [" ++ p.1 ++ "];" })
    (foreignKeysToMap target)

/-- Check constraint comparison (existence only), translated from
SchemaComparator.compareCheckConstraints. -/
def compareCheckConstraints (tableName : String)
    (source target : List CheckConstraint) : List Difference :=
  collectD (fun p =>
    if (lookupA p.1 (checkConstraintsToMap target)).isSome then none
    else some
      { Type' := DiffRemoved, Category := DiffCategoryConstraint,
        ObjectName := tableName ++ "." ++ p.1,
        Description := "Check constraint [" ++ p.1 ++ "] missing in target",
        MigrationSQL := p.2.GenerateSQL ++ ";" }) (checkConstraintsToMap source) ++
  collectD (fun p =>
    if (lookupA p.1 (checkConstraintsToMap source)).isSome then none
    else some
      { Type' := DiffAdded, Category := DiffCategoryConstraint,
        ObjectName := tableName ++ "." ++ p.1,
        Description := "Check constraint [" ++ p.1 ++ "] exists only in target",
        MigrationSQL := "ALTER TABLE " ++ tableName ++ " DROP CONSTRAINT [" ++ p.1 ++ "];" })
    (checkConstraintsToMap target)

/-- Primary key comparison, translated from
SchemaComparator.comparePrimaryKeys; Go's *Index becomes Option Index. -/
def comparePrimaryKeys (tableName : String) (source target : Option Index) :
    List Difference :=
  match source, target with
  | none, none => []
  | none, some _ =>
    [{ Type' := DiffAdded, Category := DiffCategoryConstraint,
       ObjectName := tableName ++ ".PK",
       Description := "Primary key exists only in target" }]
  | some _, none =>
    [{ Type' := DiffRemoved, Category := DiffCategoryConstraint,
       ObjectName := tableName ++ ".PK",
       Description := "Primary key missing in target" }]
  | some src, some tgt =>
    if indexColumnsToString src.Columns ≠ indexColumnsToString tgt.Columns then
      [{ Type' := DiffModified, Category := DiffCategoryConstraint,
         ObjectName := tableName ++ "." ++ src.Name, PropertyName := "Columns",
         SourceValue := indexColumnsToString src.Columns,
         TargetValue := indexColumnsToString tgt.Columns,
         Description := "Primary key columns differ: [" ++
           indexColumnsToString src.Columns ++ "] vs [" ++
           indexColumnsToString tgt.Columns ++ "]" }]
    else []

/-- Detailed comparison of two matched tables, translated from
SchemaComparator.compareTableStructure. -/
def compareTableStructure (opts : DiffOptions) (source target : Table) :
    List Difference :=
  let tableName := formatTableName source
  compareColumns opts tableName source.Columns target.Columns ++
  (if opts.IncludeIndexes then compareIndexes tableName source.Indexes target.Indexes
   else []) ++
  (if opts.IncludeForeignKeys then
    compareForeignKeys tableName source.ForeignKeys target.ForeignKeys
   else []) ++
  (if opts.IncludeConstraints then
    compareCheckConstraints tableName source.CheckConstraints target.CheckConstraints
   else []) ++
  comparePrimaryKeys tableName source.PrimaryKey target.PrimaryKey

/-- Table collection comparison, translated from
SchemaComparator.compareTables. -/
def compareTables (opts : DiffOptions) (source target : List Table) : List Difference :=
  collectD (fun p =>
    if (lookupA p.1 (tablesToMap target)).isSome then none
    else some
      { Type' := DiffRemoved, Category := DiffCategoryTable, ObjectName := p.1,
        Description := "Table [" ++ p.1 ++ "] exists in source but not in target",
        MigrationSQL := "CREATE TABLE " ++ p.1 ++
          " (\n    -- Copy structure from source\n)" }) (tablesToMap source) ++
  collectD (fun p =>
    if (lookupA p.1 (tablesToMap source)).isSome then none
    else some
      { Type' := DiffAdded, Category := DiffCategoryTable, ObjectName := p.1,
        Description := "Table [" ++ p.1 ++ "] exists in target but not in source",
        MigrationSQL := "DROP TABLE " ++ formatTableName p.2 ++ ";" })
    (tablesToMap target) ++
  concatMapD (fun p =>
    match lookupA p.1 (tablesToMap target) with
    | some tgtTable => compareTableStructure opts p.2 tgtTable
    | none => []) (tablesToMap source)

/-- View comparison, translated from SchemaComparator.compareViews. -/
def compareViews (opts : DiffOptions) (source target : List View) : List Difference :=
  collectD (fun p =>
    if (lookupA p.1 (viewsToMap target)).isSome then none
    else some
      { Type' := DiffRemoved, Category := DiffCategoryView, ObjectName := p.1,
        Description := "View [" ++ p.1 ++ "] missing in target" }) (viewsToMap source) ++
  collectD (fun p =>
    if (lookupA p.1 (viewsToMap source)).isSome then none
    else some
      { Type' := DiffAdded, Category := DiffCategoryView, ObjectName := p.1,
        Description := "View [" ++ p.1 ++ "] exists only in target" })
    (viewsToMap target) ++
  collectD (fun p =>
    match lookupA p.1 (viewsToMap target) with
    | some tgtView =>
      if definitionsEqual opts p.2.Definition tgtView.Definition then none
      else some
        { Type' := DiffModified, Category := DiffCategoryView, ObjectName := p.1,
          Description := "View definition differs" }
    | none => none) (viewsToMap source)

/-- Stored procedure comparison, translated from
SchemaComparator.compareProcedures. -/
def compareProcedures (opts : DiffOptions) (source target : List StoredProcedure) :
    List Difference :=
  collectD (fun p =>
    if (lookupA p.1 (proceduresToMap target)).isSome then none
    else some
      { Type' := DiffRemoved, Category := DiffCategoryProcedure, ObjectName := p.1,
        Description := "Procedure [" ++ p.1 ++ "] missing in target" })
    (proceduresToMap source) ++
  collectD (fun p =>
    if (lookupA p.1 (proceduresToMap source)).isSome then none
    else some
      { Type' := DiffAdded, Category := DiffCategoryProcedure, ObjectName := p.1,
        Description := "Procedure [" ++ p.1 ++ "] exists only in target" })
    (proceduresToMap target) ++
  collectD (fun p =>
    match lookupA p.1 (proceduresToMap target) with
    | some tgtProc =>
      if definitionsEqual opts p.2.Definition tgtProc.Definition then none
      else some
        { Type' := DiffModified, Category := DiffCategoryProcedure, ObjectName := p.1,
          Description := "Procedure definition differs" }
    | none => none) (proceduresToMap source)

/-- Function comparison, translated from SchemaComparator.compareFunctions. -/
def compareFunctions (opts : DiffOptions) (source target : List Function) :
    List Difference :=
  collectD (fun p =>
    if (lookupA p.1 (functionsToMap target)).isSome then none
    else some
      { Type' := DiffRemoved, Category := DiffCategoryFunction, ObjectName := p.1,
        Description := "Function [" ++ p.1 ++ "] missing in target" })
    (functionsToMap source) ++
  collectD (fun p =>
    if (lookupA p.1 (functionsToMap source)).isSome then none
    else some
      { Type' := DiffAdded, Category := DiffCategoryFunction, ObjectName := p.1,
        Description := "Function [" ++ p.1 ++ "] exists only in target" })
    (functionsToMap target) ++
  collectD (fun p =>
    match lookupA p.1 (functionsToMap target) with
    | some tgtFunc =>
      if definitionsEqual opts p.2.Definition tgtFunc.Definition then none
      else some
        { Type' := DiffModified, Category := DiffCategoryFunction, ObjectName := p.1,
          Description := "Function definition differs" }
    | none => none) (functionsToMap source)

/-- Trigger comparison, translated from SchemaComparator.compareTriggers. -/
def compareTriggers (opts : DiffOptions) (source target : List Trigger) :
    List Difference :=
  collectD (fun p =>
    if (lookupA p.1 (triggersToMap target)).isSome then none
    else some
      { Type' := DiffRemoved, Category := DiffCategoryTrigger, ObjectName := p.1,
        Description := "Trigger [" ++ p.1 ++ "] missing in target" })
    (triggersToMap source) ++
  collectD (fun p =>
    if (lookupA p.1 (triggersToMap source)).isSome then none
    else some
      { Type' := DiffAdded, Category := DiffCategoryTrigger, ObjectName := p.1,
        Description := "Trigger [" ++ p.1 ++ "] exists only in target" })
    (triggersToMap target) ++
  collectD (fun p =>
    match lookupA p.1 (triggersToMap target) with
    | some tgtTrig =>
      if definitionsEqual opts p.2.Definition tgtTrig.Definition then none
      else some
        { Type' := DiffModified, Category := DiffCategoryTrigger, ObjectName := p.1,
          Description := "Trigger definition differs" }
    | none => none) (triggersToMap source)

/-- All differences accumulated by SchemaComparator.Compare, in the
source's append order, before the summary is calculated. -/
def compareAll (opts : DiffOptions) (source target : DatabaseSchema) : List Difference :=
  (if opts.IncludeTables then compareTables opts source.Tables target.Tables else []) ++
  (if opts.IncludeViews then compareViews opts source.Views target.Views else []) ++
  (if opts.IncludeProcedures then
    compareProcedures opts source.StoredProcedures target.StoredProcedures
   else []) ++
  (if opts.IncludeFunctions then
    compareFunctions opts source.Functions target.Functions
   else []) ++
  (if opts.IncludeTriggers then compareTriggers opts source.Triggers target.Triggers
   else [])

/-- Whole-schema comparison, translated from SchemaComparator.Compare; the
result carries the difference list and the calculated summary. -/
def Compare (opts : DiffOptions) (source target : DatabaseSchema) : DiffResult :=
  { SourceDatabase := source.DatabaseName,
    TargetDatabase := target.DatabaseName,
    Differences := compareAll opts source target,
    Summary := CalculateSummary (compareAll opts source target) }

/-!
Reflexivity of the comparator: every comparison routine yields no
difference when both sides are the same collection.
-/

theorem definitionsEqual_self (opts : DiffOptions) (s : String) :
    definitionsEqual opts s s = true := by
  unfold definitionsEqual
  split <;> simp

theorem removed_self_nil {α : Type} (m : List (String × α)) (g : String × α → Difference) :
    collectD (fun p => if (lookupA p.1 m).isSome = true then none else some (g p)) m
      = [] := by
  apply collectD_eq_nil
  intro p hp
  have h : (lookupA p.1 m).isSome = true :=
    lookupA_isSome_of_mem (v := p.2) (by simpa using hp)
  simp [h]

theorem compareColumnDetails_self (opts : DiffOptions) (tableName : String) (c : Column) :
    compareColumnDetails opts tableName c c = [] := by
  simp [compareColumnDetails]

theorem compareIndexDetails_self (tableName : String) (i : Index) :
    compareIndexDetails tableName i i = [] := by
  simp [compareIndexDetails]

theorem comparePrimaryKeys_self (tableName : String) (pk : Option Index) :
    comparePrimaryKeys tableName pk pk = [] := by
  cases pk <;> simp [comparePrimaryKeys]

theorem compareColumns_self (opts : DiffOptions) (tableName : String) (l : List Column) :
    compareColumns opts tableName l l = [] := by
  unfold compareColumns
  rw [removed_self_nil, removed_self_nil, concatMapD_eq_nil]
  · rfl
  · intro p hp
    have h : lookupA p.1 (columnsToMap l) = some p.2 :=
      lookupA_of_mem_nodup (show (keysA (columnsToMap l)).Nodup from nodup_keysA_toMapA _ _)
        (by simpa using hp)
    rw [h]
    exact compareColumnDetails_self opts tableName p.2

theorem compareIndexes_self (tableName : String) (l : List Index) :
    compareIndexes tableName l l = [] := by
  unfold compareIndexes
  rw [removed_self_nil, removed_self_nil, concatMapD_eq_nil]
  · rfl
  · intro p hp
    have h : lookupA p.1 (indexesToMap l) = some p.2 :=
      lookupA_of_mem_nodup (show (keysA (indexesToMap l)).Nodup from nodup_keysA_toMapA _ _)
        (by simpa using hp)
    rw [h]
    exact compareIndexDetails_self tableName p.2

theorem compareForeignKeys_self (tableName : String) (l : List ForeignKey) :
    compareForeignKeys tableName l l = [] := by
  unfold compareForeignKeys
  rw [removed_self_nil, removed_self_nil]
  rfl

theorem compareCheckConstraints_self (tableName : String) (l : List CheckConstraint) :
    compareCheckConstraints tableName l l = [] := by
  unfold compareCheckConstraints
  rw [removed_self_nil, removed_self_nil]
  rfl

theorem compareTableStructure_self (opts : DiffOptions) (t : Table) :
    compareTableStructure opts t t = [] := by
  simp only [compareTableStructure]
  rw [compareColumns_self, comparePrimaryKeys_self]
  simp [compareIndexes_self, compareForeignKeys_self, compareCheckConstraints_self]

theorem compareTables_self (opts : DiffOptions) (l : List Table) :
    compareTables opts l l = [] := by
  unfold compareTables
  rw [removed_self_nil, removed_self_nil, concatMapD_eq_nil]
  · rfl
  · intro p hp
    have h : lookupA p.1 (tablesToMap l) = some p.2 :=
      lookupA_of_mem_nodup (show (keysA (tablesToMap l)).Nodup from nodup_keysA_toMapA _ _)
        (by simpa using hp)
    rw [h]
    exact compareTableStructure_self opts p.2

theorem compareViews_self (opts : DiffOptions) (l : List View) :
    compareViews opts l l = [] := by
  unfold compareViews
  rw [removed_self_nil, removed_self_nil, collectD_eq_nil]
  · rfl
  · intro p hp
    have h : lookupA p.1 (viewsToMap l) = some p.2 :=
      lookupA_of_mem_nodup (show (keysA (viewsToMap l)).Nodup from nodup_keysA_toMapA _ _)
        (by simpa using hp)
    rw [h]
    simp [definitionsEqual_self]

theorem compareProcedures_self (opts : DiffOptions) (l : List StoredProcedure) :
    compareProcedures opts l l = [] := by
  unfold compareProcedures
  rw [removed_self_nil, removed_self_nil, collectD_eq_nil]
  · rfl
  · intro p hp
    have h : lookupA p.1 (proceduresToMap l) = some p.2 :=
      lookupA_of_mem_nodup (show (keysA (proceduresToMap l)).Nodup from nodup_keysA_toMapA _ _)
        (by simpa using hp)
    rw [h]
    simp [definitionsEqual_self]

theorem compareFunctions_self (opts : DiffOptions) (l : List Function) :
    compareFunctions opts l l = [] := by
  unfold compareFunctions
  rw [removed_self_nil, removed_self_nil, collectD_eq_nil]
  · rfl
  · intro p hp
    have h : lookupA p.1 (functionsToMap l) = some p.2 :=
      lookupA_of_mem_nodup (show (keysA (functionsToMap l)).Nodup from nodup_keysA_toMapA _ _)
        (by simpa using hp)
    rw [h]
    simp [definitionsEqual_self]

theorem compareTriggers_self (opts : DiffOptions) (l : List Trigger) :
    compareTriggers opts l l = [] := by
  unfold compareTriggers
  rw [removed_self_nil, removed_self_nil, collectD_eq_nil]
  · rfl
  · intro p hp
    have h : lookupA p.1 (triggersToMap l) = some p.2 :=
      lookupA_of_mem_nodup (show (keysA (triggersToMap l)).Nodup from nodup_keysA_toMapA _ _)
        (by simpa using hp)
    rw [h]
    simp [definitionsEqual_self]

/-- C3: for every schema S and every combination of DiffOptions,
Compare(S, S) yields a DiffResult whose Differences list is empty, hence
zero differences in every category. -/
theorem claim3_compare_reflexive (opts : DiffOptions) (S : DatabaseSchema) :
    (Compare opts S S).Differences = [] := by
  show compareAll opts S S = []
  unfold compareAll
  simp [compareTables_self, compareViews_self, compareProcedures_self,
    compareFunctions_self, compareTriggers_self]

/-!
Summary bookkeeping and a classification of every difference the
comparator can emit, by membership in each comparison routine's output.
-/

def goodType (d : Difference) : Bool :=
  d.Type' == DiffAdded || d.Type' == DiffRemoved || d.Type' == DiffModified

theorem foldl_summaryStep (l : List Difference) (s : DiffSummary) :
    (l.foldl summaryStep s).TotalDifferences = s.TotalDifferences + l.length ∧
    (l.foldl summaryStep s).Added + (l.foldl summaryStep s).Removed +
        (l.foldl summaryStep s).Modified =
      s.Added + s.Removed + s.Modified + l.countP goodType := by
  induction l generalizing s with
  | nil => simp
  | cons d rest ih =>
    rw [List.foldl_cons]
    obtain ⟨h1, h2⟩ := ih (summaryStep s d)
    rw [List.countP_cons]
    constructor
    · rw [h1]
      have hstep : (summaryStep s d).TotalDifferences = s.TotalDifferences + 1 := by
        unfold summaryStep
        split_ifs <;> rfl
      rw [hstep, List.length_cons]
      omega
    · rw [h2]
      have hstep : (summaryStep s d).Added + (summaryStep s d).Removed +
          (summaryStep s d).Modified =
          s.Added + s.Removed + s.Modified + (if goodType d = true then 1 else 0) := by
        unfold summaryStep goodType
        split_ifs <;> simp_all <;> omega
      rw [hstep]
      omega

theorem mem_ite_singleton {α : Type} {c : Prop} [Decidable c] {x d : α}
    (h : d ∈ if c then [x] else ([] : List α)) : d = x := by
  split_ifs at h <;> simp_all

theorem mem_compareColumnDetails {opts : DiffOptions} {tableName : String}
    {source target : Column} {d : Difference}
    (h : d ∈ compareColumnDetails opts tableName source target) :
    d.Type' = DiffModified ∧ d.Category = DiffCategoryColumn := by
  unfold compareColumnDetails at h
  simp only [List.mem_append] at h
  rcases h with ((((h | h) | h) | h) | h) | h <;>
    (obtain rfl := mem_ite_singleton h; exact ⟨rfl, rfl⟩)

theorem mem_compareColumns {opts : DiffOptions} {tableName : String}
    {a b : List Column} {d : Difference}
    (h : d ∈ compareColumns opts tableName a b) :
    d.Category = DiffCategoryColumn ∧ goodType d = true := by
  unfold compareColumns at h
  rcases List.mem_append.mp h with h | h
  · rcases List.mem_append.mp h with h | h
    · obtain ⟨p, hp, hfp⟩ := mem_collectD h
      split_ifs at hfp
      simp only [Option.some.injEq] at hfp
      subst hfp
      exact ⟨rfl, rfl⟩
    · obtain ⟨p, hp, hfp⟩ := mem_collectD h
      split_ifs at hfp
      simp only [Option.some.injEq] at hfp
      subst hfp
      exact ⟨rfl, rfl⟩
  · obtain ⟨p, hp, hd⟩ := mem_concatMapD h
    cases hl : lookupA p.1 (columnsToMap b) with
    | none => rw [hl] at hd; simp at hd
    | some w =>
      rw [hl] at hd
      obtain ⟨h1, h2⟩ := mem_compareColumnDetails hd
      exact ⟨h2, by simp [goodType, h1]⟩

theorem mem_compareIndexDetails {tableName : String} {a b : Index} {d : Difference}
    (h : d ∈ compareIndexDetails tableName a b) :
    d.Type' = DiffModified ∧ d.Category = DiffCategoryIndex := by
  unfold compareIndexDetails at h
  simp only [List.mem_append] at h
  rcases h with (h | h) | h <;>
    (obtain rfl := mem_ite_singleton h; exact ⟨rfl, rfl⟩)

theorem mem_compareIndexes {tableName : String} {a b : List Index} {d : Difference}
    (h : d ∈ compareIndexes tableName a b) :
    d.Category = DiffCategoryIndex ∧ goodType d = true := by
  unfold compareIndexes at h
  rcases List.mem_append.mp h with h | h
  · rcases List.mem_append.mp h with h | h
    · obtain ⟨p, hp, hfp⟩ := mem_collectD h
      split_ifs at hfp
      simp only [Option.some.injEq] at hfp
      subst hfp
      exact ⟨rfl, rfl⟩
    · obtain ⟨p, hp, hfp⟩ := mem_collectD h
      split_ifs at hfp
      simp only [Option.some.injEq] at hfp
      subst hfp
      exact ⟨rfl, rfl⟩
  · obtain ⟨p, hp, hd⟩ := mem_concatMapD h
    cases hl : lookupA p.1 (indexesToMap b) with
    | none => rw [hl] at hd; simp at hd
    | some w =>
      rw [hl] at hd
      obtain ⟨h1, h2⟩ := mem_compareIndexDetails hd
      exact ⟨h2, by simp [goodType, h1]⟩

theorem mem_compareForeignKeys {tableName : String} {a b : List ForeignKey}
    {d : Difference} (h : d ∈ compareForeignKeys tableName a b) :
    d.Category = DiffCategoryForeignKey ∧ goodType d = true := by
  unfold compareForeignKeys at h
  rcases List.mem_append.mp h with h | h <;>
  · obtain ⟨p, hp, hfp⟩ := mem_collectD h
    split_ifs at hfp
    simp only [Option.some.injEq] at hfp
    subst hfp
    exact ⟨rfl, rfl⟩

theorem mem_compareCheckConstraints {tableName : String} {a b : List CheckConstraint}
    {d : Difference} (h : d ∈ compareCheckConstraints tableName a b) :
    d.Category = DiffCategoryConstraint ∧ goodType d = true := by
  unfold compareCheckConstraints at h
  rcases List.mem_append.mp h with h | h <;>
  · obtain ⟨p, hp, hfp⟩ := mem_collectD h
    split_ifs at hfp
    simp only [Option.some.injEq] at hfp
    subst hfp
    exact ⟨rfl, rfl⟩

theorem mem_comparePrimaryKeys {tableName : String} {a b : Option Index}
    {d : Difference} (h : d ∈ comparePrimaryKeys tableName a b) :
    d.Category = DiffCategoryConstraint ∧ goodType d = true ∧ d.MigrationSQL = "" := by
  unfold comparePrimaryKeys at h
  cases a with
  | none =>
    cases b with
    | none => simp at h
    | some i2 =>
      simp only [List.mem_singleton] at h
      subst h
      exact ⟨rfl, rfl, rfl⟩
  | some i1 =>
    cases b with
    | none =>
      simp only [List.mem_singleton] at h
      subst h
      exact ⟨rfl, rfl, rfl⟩
    | some i2 =>
      obtain rfl := mem_ite_singleton h
      exact ⟨rfl, rfl, rfl⟩

theorem mem_compareTableStructure {opts : DiffOptions} {a b : Table} {d : Difference}
    (h : d ∈ compareTableStructure opts a b) :
    (d.Category = DiffCategoryColumn ∨ d.Category = DiffCategoryIndex ∨
      d.Category = DiffCategoryForeignKey ∨ d.Category = DiffCategoryConstraint) ∧
      goodType d = true := by
  simp only [compareTableStructure] at h
  rcases List.mem_append.mp h with h | h
  · rcases List.mem_append.mp h with h | h
    · rcases List.mem_append.mp h with h | h
      · rcases List.mem_append.mp h with h | h
        · obtain ⟨h1, h2⟩ := mem_compareColumns h
          exact ⟨Or.inl h1, h2⟩
        · split_ifs at h
          · obtain ⟨h1, h2⟩ := mem_compareIndexes h
            exact ⟨Or.inr (Or.inl h1), h2⟩
          · simp at h
      · split_ifs at h
        · obtain ⟨h1, h2⟩ := mem_compareForeignKeys h
          exact ⟨Or.inr (Or.inr (Or.inl h1)), h2⟩
        · simp at h
    · split_ifs at h
      · obtain ⟨h1, h2⟩ := mem_compareCheckConstraints h
        exact ⟨Or.inr (Or.inr (Or.inr h1)), h2⟩
      · simp at h
  · obtain ⟨h1, h2, _⟩ := mem_comparePrimaryKeys h
    exact ⟨Or.inr (Or.inr (Or.inr h1)), h2⟩

theorem mem_compareTables {opts : DiffOptions} {a b : List Table} {d : Difference}
    (h : d ∈ compareTables opts a b) :
    (d.Category = DiffCategoryTable ∨ d.Category = DiffCategoryColumn ∨
      d.Category = DiffCategoryIndex ∨ d.Category = DiffCategoryForeignKey ∨
      d.Category = DiffCategoryConstraint) ∧ goodType d = true := by
  unfold compareTables at h
  rcases List.mem_append.mp h with h | h
  · rcases List.mem_append.mp h with h | h
    · obtain ⟨p, hp, hfp⟩ := mem_collectD h
      split_ifs at hfp
      simp only [Option.some.injEq] at hfp
      subst hfp
      exact ⟨Or.inl rfl, rfl⟩
    · obtain ⟨p, hp, hfp⟩ := mem_collectD h
      split_ifs at hfp
      simp only [Option.some.injEq] at hfp
      subst hfp
      exact ⟨Or.inl rfl, rfl⟩
  · obtain ⟨p, hp, hd⟩ := mem_concatMapD h
    cases hl : lookupA p.1 (tablesToMap b) with
    | none => rw [hl] at hd; simp at hd
    | some w =>
      rw [hl] at hd
      obtain ⟨h1, h2⟩ := mem_compareTableStructure hd
      exact ⟨Or.inr h1, h2⟩

theorem mem_compareViews {opts : DiffOptions} {a b : List View} {d : Difference}
    (h : d ∈ compareViews opts a b) :
    d.Category = DiffCategoryView ∧ goodType d = true ∧ d.MigrationSQL = "" := by
  unfold compareViews at h
  rcases List.mem_append.mp h with h | h
  · rcases List.mem_append.mp h with h | h <;>
    · obtain ⟨p, hp, hfp⟩ := mem_collectD h
      split_ifs at hfp
      simp only [Option.some.injEq] at hfp
      subst hfp
      exact ⟨rfl, rfl, rfl⟩
  · obtain ⟨p, hp, hfp⟩ := mem_collectD h
    split at hfp
    · split_ifs at hfp
      simp only [Option.some.injEq] at hfp
      subst hfp
      exact ⟨rfl, rfl, rfl⟩
    · simp at hfp

theorem mem_compareProcedures {opts : DiffOptions} {a b : List StoredProcedure}
    {d : Difference} (h : d ∈ compareProcedures opts a b) :
    d.Category = DiffCategoryProcedure ∧ goodType d = true ∧ d.MigrationSQL = "" := by
  unfold compareProcedures at h
  rcases List.mem_append.mp h with h | h
  · rcases List.mem_append.mp h with h | h <;>
    · obtain ⟨p, hp, hfp⟩ := mem_collectD h
      split_ifs at hfp
      simp only [Option.some.injEq] at hfp
      subst hfp
      exact ⟨rfl, rfl, rfl⟩
  · obtain ⟨p, hp, hfp⟩ := mem_collectD h
    split at hfp
    · split_ifs at hfp
      simp only [Option.some.injEq] at hfp
      subst hfp
      exact ⟨rfl, rfl, rfl⟩
    · simp at hfp

theorem mem_compareFunctions {opts : DiffOptions} {a b : List Function}
    {d : Difference} (h : d ∈ compareFunctions opts a b) :
    d.Category = DiffCategoryFunction ∧ goodType d = true ∧ d.MigrationSQL = "" := by
  unfold compareFunctions at h
  rcases List.mem_append.mp h with h | h
  · rcases List.mem_append.mp h with h | h <;>
    · obtain ⟨p, hp, hfp⟩ := mem_collectD h
      split_ifs at hfp
      simp only [Option.some.injEq] at hfp
      subst hfp
      exact ⟨rfl, rfl, rfl⟩
  · obtain ⟨p, hp, hfp⟩ := mem_collectD h
    split at hfp
    · split_ifs at hfp
      simp only [Option.some.injEq] at hfp
      subst hfp
      exact ⟨rfl, rfl, rfl⟩
    · simp at hfp

theorem mem_compareTriggers {opts : DiffOptions} {a b : List Trigger}
    {d : Difference} (h : d ∈ compareTriggers opts a b) :
    d.Category = DiffCategoryTrigger ∧ goodType d = true ∧ d.MigrationSQL = "" := by
  unfold compareTriggers at h
  rcases List.mem_append.mp h with h | h
  · rcases List.mem_append.mp h with h | h <;>
    · obtain ⟨p, hp, hfp⟩ := mem_collectD h
      split_ifs at hfp
      simp only [Option.some.injEq] at hfp
      subst hfp
      exact ⟨rfl, rfl, rfl⟩
  · obtain ⟨p, hp, hfp⟩ := mem_collectD h
    split at hfp
    · split_ifs at hfp
      simp only [Option.some.injEq] at hfp
      subst hfp
      exact ⟨rfl, rfl, rfl⟩
    · simp at hfp

/-- Classification of every difference Compare can emit: its kind is one
of the three constants, its category is never SCHEMA, and differences of
the four free-text categories carry no migration SQL. -/
theorem mem_compareAll {opts : DiffOptions} {s t : DatabaseSchema} {d : Difference}
    (h : d ∈ compareAll opts s t) :
    goodType d = true ∧ d.Category ≠ DiffCategorySchema ∧
      ((d.Category = DiffCategoryView ∨ d.Category = DiffCategoryProcedure ∨
        d.Category = DiffCategoryFunction ∨ d.Category = DiffCategoryTrigger) →
        d.MigrationSQL = "") := by
  unfold compareAll at h
  rcases List.mem_append.mp h with h | h
  · rcases List.mem_append.mp h with h | h
    · rcases List.mem_append.mp h with h | h
      · rcases List.mem_append.mp h with h | h
        · split_ifs at h
          · obtain ⟨h1, h2⟩ := mem_compareTables h
            refine ⟨h2, ?_, ?_⟩ <;>
              rcases h1 with h1 | h1 | h1 | h1 | h1 <;> rw [h1] <;> intros <;> simp_all <;>
                simp [DiffCategoryTable, DiffCategoryColumn, DiffCategoryIndex,
                  DiffCategoryForeignKey, DiffCategoryConstraint, DiffCategorySchema,
                  DiffCategoryView, DiffCategoryProcedure, DiffCategoryFunction,
                  DiffCategoryTrigger] at *
          · simp at h
        · split_ifs at h
          · obtain ⟨h1, h2, h3⟩ := mem_compareViews h
            exact ⟨h2, by rw [h1]; simp [DiffCategoryView, DiffCategorySchema],
              fun _ => h3⟩
          · simp at h
      · split_ifs at h
        · obtain ⟨h1, h2, h3⟩ := mem_compareProcedures h
          exact ⟨h2, by rw [h1]; simp [DiffCategoryProcedure, DiffCategorySchema],
            fun _ => h3⟩
        · simp at h
    · split_ifs at h
      · obtain ⟨h1, h2, h3⟩ := mem_compareFunctions h
        exact ⟨h2, by rw [h1]; simp [DiffCategoryFunction, DiffCategorySchema],
          fun _ => h3⟩
      · simp at h
  · split_ifs at h
    · obtain ⟨h1, h2, h3⟩ := mem_compareTriggers h
      exact ⟨h2, by rw [h1]; simp [DiffCategoryTrigger, DiffCategorySchema],
        fun _ => h3⟩
    · simp at h

/-- C4: for every DiffResult produced by Compare (whose summary
CalculateSummary has filled in), TotalDifferences equals the length of
the Differences list, and Added + Removed + Modified equals that total. -/
theorem claim4_summary_consistent (opts : DiffOptions) (source target : DatabaseSchema) :
    (Compare opts source target).Summary.TotalDifferences =
        (Compare opts source target).Differences.length ∧
      (Compare opts source target).Summary.Added +
          (Compare opts source target).Summary.Removed +
          (Compare opts source target).Summary.Modified =
        (Compare opts source target).Summary.TotalDifferences := by
  have hfold := foldl_summaryStep (compareAll opts source target)
    { TotalDifferences := 0, Added := 0, Removed := 0, Modified := 0, ByCategory := [] }
  have hcount : (compareAll opts source target).countP goodType =
      (compareAll opts source target).length := by
    rw [List.countP_eq_length]
    exact fun d hd => (mem_compareAll hd).1
  have h1 : (CalculateSummary (compareAll opts source target)).TotalDifferences =
      (compareAll opts source target).length := by
    unfold CalculateSummary
    rw [hfold.1]
    simp
  have h2 : (CalculateSummary (compareAll opts source target)).Added +
      (CalculateSummary (compareAll opts source target)).Removed +
      (CalculateSummary (compareAll opts source target)).Modified =
      (compareAll opts source target).length := by
    unfold CalculateSummary
    rw [hfold.2, hcount]
    simp
  exact ⟨h1, h2.trans h1.symm⟩

/-- C9: the Differences list returned by Compare contains no element in
category SCHEMA, and the Schemas collections of the two inputs are never
compared: replacing them changes nothing in the result. -/
theorem claim9_no_schema_category (opts : DiffOptions) (s t : DatabaseSchema)
    (ss ts' : List Schema) (d : Difference)
    (hd : d ∈ (Compare opts s t).Differences) :
    d.Category ≠ DiffCategorySchema ∧
      Compare opts { s with Schemas := ss } { t with Schemas := ts' } =
        Compare opts s t :=
  ⟨(mem_compareAll hd).2.1, rfl⟩

theorem foldl_append_all_empty (l : List String) :
    ∀ acc : String, (∀ x ∈ l, x = "") → l.foldl (fun r s => r ++ s) acc = acc := by
  induction l with
  | nil => intro acc h; rfl
  | cons x xs ih =>
    intro acc h
    have hx : x = "" := h x (by simp)
    subst hx
    rw [List.foldl_cons]
    have hacc : acc ++ "" = acc := by simp
    rw [hacc]
    exact ih acc fun y hy => h y (by simp [hy])

theorem join_all_empty (l : List String) (h : ∀ x ∈ l, x = "") :
    String.join l = "" := by
  unfold String.join
  exact foldl_append_all_empty l "" h

/-- C10: every difference produced by the view, stored-procedure,
function and trigger comparisons has an empty MigrationSQL field, so for
all inputs these four categories contribute no SQL statement to the
migration script: their category block is empty or the bare banner. -/
theorem claim10_no_migration_sql (opts : DiffOptions) (s t : DatabaseSchema)
    (cat : String)
    (hcat : cat = DiffCategoryView ∨ cat = DiffCategoryProcedure ∨
      cat = DiffCategoryFunction ∨ cat = DiffCategoryTrigger) :
    (∀ d ∈ compareViews opts s.Views t.Views, d.MigrationSQL = "") ∧
    (∀ d ∈ compareProcedures opts s.StoredProcedures t.StoredProcedures,
      d.MigrationSQL = "") ∧
    (∀ d ∈ compareFunctions opts s.Functions t.Functions, d.MigrationSQL = "") ∧
    (∀ d ∈ compareTriggers opts s.Triggers t.Triggers, d.MigrationSQL = "") ∧
    categoryBlock (Compare opts s t) cat =
      (if (Compare opts s t).FilterByCategory cat = [] then ""
       else "-- " ++ cat ++ " Changes\n" ++ "-- " ++
         "----------------------------------------" ++ "\n\n") := by
  refine ⟨fun d hd => (mem_compareViews hd).2.2,
    fun d hd => (mem_compareProcedures hd).2.2,
    fun d hd => (mem_compareFunctions hd).2.2,
    fun d hd => (mem_compareTriggers hd).2.2, ?_⟩
  simp only [categoryBlock]
  split_ifs with hnil
  · rfl
  · have hall : ∀ x ∈ ((Compare opts s t).FilterByCategory cat).map migrationFragment,
        x = "" := by
      intro x hx
      obtain ⟨d, hd, rfl⟩ := List.mem_map.mp hx
      obtain ⟨hmem, hc⟩ := List.mem_filter.mp hd
      have hcd : d.Category = cat := of_decide_eq_true hc
      have hwf := (mem_compareAll hmem).2.2
      have : d.MigrationSQL = "" := by
        apply hwf
        rcases hcat with rfl | rfl | rfl | rfl
        · exact Or.inl hcd
        · exact Or.inr (Or.inl hcd)
        · exact Or.inr (Or.inr (Or.inl hcd))
        · exact Or.inr (Or.inr (Or.inr hcd))
      simp [migrationFragment, this]
    rw [join_all_empty _ hall]
    simp

/-!
Structure of the git-style report: the loop in PrintGitStyle renders the
difference list as maximal runs of consecutive equal categories, one
section header per run, not one section per category.
-/

/-- Partition of a difference list into maximal runs of consecutive
differences sharing a category, each run tagged with that category. -/
def chunkCat : List Difference → List (String × List Difference)
  | [] => []
  | d :: rest =>
    match chunkCat rest with
    | [] => [(d.Category, [d])]
    | (c, ds) :: more =>
      if d.Category = c then (c, d :: ds) :: more
      else (d.Category, [d]) :: (c, ds) :: more

/-- Report lines of one run of differences. -/
def chunkLines : List Difference → String
  | [] => ""
  | d :: ds => d.String ++ "\n" ++ chunkLines ds

/-- Rendering of a run list: each run opens with a section header unless
its category equals the previous one (the running category of the loop). -/
def renderChunks (currentCategory : String) : List (String × List Difference) → String
  | [] => ""
  | (c, ds) :: more =>
    (if c ≠ currentCategory then "\n@@ " ++ c ++ " @@\n" else "") ++
      chunkLines ds ++ renderChunks c more

theorem chunkCat_eq_nil {l : List Difference} (h : chunkCat l = []) : l = [] := by
  cases l with
  | nil => rfl
  | cons d rest =>
    exfalso
    unfold chunkCat at h
    cases hc : chunkCat rest with
    | nil => rw [hc] at h; simp at h
    | cons p more =>
      rw [hc] at h
      obtain ⟨c, ds⟩ := p
      by_cases hdc : d.Category = c <;> simp [hdc] at h

theorem printGitLoop_eq_renderChunks (diffs : List Difference) :
    ∀ cur : String, printGitLoop cur diffs = renderChunks cur (chunkCat diffs) := by
  induction diffs with
  | nil => intro cur; rfl
  | cons d rest ih =>
    intro cur
    cases hc : chunkCat rest with
    | nil =>
      have hrest : rest = [] := chunkCat_eq_nil hc
      subst hrest
      by_cases hd : d.Category = cur <;>
        simp [printGitLoop, chunkCat, renderChunks, chunkLines, hd, String.append_assoc]
    | cons p more =>
      obtain ⟨c, ds⟩ := p
      have hloop : chunkCat (d :: rest) =
          if d.Category = c then (c, d :: ds) :: more
          else (d.Category, [d]) :: (c, ds) :: more := by
        unfold chunkCat
        rw [hc]
      by_cases hd : d.Category = cur
      · by_cases hdc : d.Category = c
        · rw [hloop, if_pos hdc]
          simp only [printGitLoop, hd, ne_eq, not_true_eq_false, if_false, ite_false]
          rw [ih cur, hc]
          simp [renderChunks, chunkLines, ← hdc, hd, String.append_assoc]
        · rw [hloop, if_neg hdc]
          simp only [printGitLoop, hd, ne_eq, not_true_eq_false, ite_false]
          rw [ih cur, hc]
          simp [renderChunks, chunkLines, hd, String.append_assoc]
      · by_cases hdc : d.Category = c
        · rw [hloop, if_pos hdc]
          simp only [printGitLoop, ne_eq, hd, not_false_eq_true, ite_true]
          rw [ih d.Category, hc]
          simp [renderChunks, chunkLines, ← hdc, hd, Ne.symm hd, String.append_assoc]
        · rw [hloop, if_neg hdc]
          simp only [printGitLoop, ne_eq, hd, not_false_eq_true, ite_true]
          rw [ih d.Category, hc]
          simp [renderChunks, chunkLines, hdc, hd, Ne.symm hd, String.append_assoc]

/-- C1 (amended): the git-style report is the three header lines and a
blank line, followed by the differences in their stored order partitioned
into maximal runs of consecutive equal categories; every run yields one
section header and one line per difference, so a category whose
differences are not contiguous yields several sections. -/
theorem claim1_print_git_style_sections (r : DiffResult) :
    r.PrintGitStyle =
      "diff --sqlpulse a/" ++ r.SourceDatabase ++ " b/" ++ r.TargetDatabase ++ "\n" ++
      "--- a/" ++ r.SourceDatabase ++ "\n" ++
      "+++ b/" ++ r.TargetDatabase ++ "\n" ++
      "\n" ++ renderChunks "" (chunkCat r.Differences) := by
  unfold DiffResult.PrintGitStyle
  rw [printGitLoop_eq_renderChunks]

/-!
Behaviour of the comparator when one side has exactly one extra object,
and when exactly one matched object differs in one property.
-/

theorem lookupA_append_of_isSome {α : Type} {k : String} {m₁ : List (String × α)}
    (m₂ : List (String × α)) (h : (lookupA k m₁).isSome = true) :
    lookupA k (m₁ ++ m₂) = lookupA k m₁ := by
  rw [lookupA_append]
  cases hl : lookupA k m₁ with
  | none => rw [hl] at h; simp at h
  | some v => rfl

theorem foldl_insertA_eq_append {α : Type} (key : α → String) (l : List α) :
    ∀ acc : List (String × α), (l.map key).Nodup →
      (∀ a ∈ l.map key, a ∉ keysA acc) →
      l.foldl (fun m x => insertA (key x) x m) acc =
        acc ++ l.map (fun x => (key x, x)) := by
  induction l with
  | nil => intro acc _ _; simp
  | cons x xs ih =>
    intro acc hnd hdisj
    rw [List.map_cons, List.nodup_cons] at hnd
    rw [List.foldl_cons, insertA_of_not_mem x (hdisj (key x) (by simp))]
    rw [ih (acc ++ [(key x, x)]) hnd.2]
    · simp
    · intro a ha
      have h1 : a ∉ keysA acc := hdisj a (by simp [ha])
      have h2 : a ≠ key x := by
        rintro rfl
        exact hnd.1 ha
      rw [show keysA (acc ++ [(key x, x)]) = keysA acc ++ [key x] by simp [keysA]]
      simp [h1, h2]

theorem toMapA_eq_pairs {α : Type} (key : α → String) (l : List α)
    (h : (l.map key).Nodup) :
    toMapA key l = l.map (fun x => (key x, x)) := by
  rw [toMapA, foldl_insertA_eq_append key l [] h (by simp [keysA])]
  simp

/-- With one extra table on the source side and a fresh name, compareTables
yields exactly the one Removed record for it. -/
theorem compareTables_extra_removed (opts : DiffOptions) (ts : List Table) (t : Table)
    (hfresh : ∀ t' ∈ ts, formatTableName t' ≠ formatTableName t) :
    compareTables opts (ts ++ [t]) ts =
      [{ Type' := DiffRemoved, Category := DiffCategoryTable,
         ObjectName := formatTableName t,
         Description := "Table [" ++ formatTableName t ++
           "] exists in source but not in target",
         MigrationSQL := "CREATE TABLE " ++ formatTableName t ++
           " (\n    -- Copy structure from source\n)" }] := by
  have hnotin : formatTableName t ∉ keysA (tablesToMap ts) := by
    rw [show keysA (tablesToMap ts) = keysA (toMapA formatTableName ts) from rfl]
    rw [mem_keysA_toMapA]
    intro hmem
    obtain ⟨t', ht', heq⟩ := List.mem_map.mp hmem
    exact hfresh t' ht' heq
  have hmap : tablesToMap (ts ++ [t]) = tablesToMap ts ++ [(formatTableName t, t)] :=
    toMapA_append_single formatTableName ts t (by
      intro hmem
      obtain ⟨t', ht', heq⟩ := List.mem_map.mp hmem
      exact hfresh t' ht' heq)
  unfold compareTables
  rw [hmap]
  rw [collectD_append]
  have hremNil : collectD (fun p =>
      if (lookupA p.1 (tablesToMap ts)).isSome = true then none
      else some
        ({ Type' := DiffRemoved, Category := DiffCategoryTable, ObjectName := p.1,
           Description := "Table [" ++ p.1 ++ "] exists in source but not in target",
           MigrationSQL := "CREATE TABLE " ++ p.1 ++
             " (\n    -- Copy structure from source\n)" } : Difference)) (tablesToMap ts) = [] := by
    apply collectD_eq_nil
    intro p hp
    have h : (lookupA p.1 (tablesToMap ts)).isSome = true :=
      lookupA_isSome_of_mem (v := p.2) (by simpa using hp)
    simp [h]
  rw [hremNil]
  have hremOne : collectD (fun p =>
      if (lookupA p.1 (tablesToMap ts)).isSome = true then none
      else some
        ({ Type' := DiffRemoved, Category := DiffCategoryTable, ObjectName := p.1,
           Description := "Table [" ++ p.1 ++ "] exists in source but not in target",
           MigrationSQL := "CREATE TABLE " ++ p.1 ++
             " (\n    -- Copy structure from source\n)" } : Difference))
      [(formatTableName t, t)] =
      [{ Type' := DiffRemoved, Category := DiffCategoryTable,
         ObjectName := formatTableName t,
         Description := "Table [" ++ formatTableName t ++
           "] exists in source but not in target",
         MigrationSQL := "CREATE TABLE " ++ formatTableName t ++
           " (\n    -- Copy structure from source\n)" }] := by
    have hl : lookupA (formatTableName t) (tablesToMap ts) = none :=
      lookupA_eq_none_of_not_mem hnotin
    simp [collectD, hl]
  rw [hremOne]
  have haddNil : collectD (fun p =>
      if (lookupA p.1 (tablesToMap ts ++ [(formatTableName t, t)])).isSome = true then none
      else some
        ({ Type' := DiffAdded, Category := DiffCategoryTable, ObjectName := p.1,
           Description := "Table [" ++ p.1 ++ "] exists in target but not in source",
           MigrationSQL := "DROP TABLE " ++ formatTableName p.2 ++ ";" } : Difference))
      (tablesToMap ts) = [] := by
    apply collectD_eq_nil
    intro p hp
    have h : (lookupA p.1 (tablesToMap ts)).isSome = true :=
      lookupA_isSome_of_mem (v := p.2) (by simpa using hp)
    rw [lookupA_append_of_isSome _ h]
    simp [h]
  rw [haddNil]
  have hmatch : concatMapD (fun p =>
      match lookupA p.1 (tablesToMap ts) with
      | some tgtTable => compareTableStructure opts p.2 tgtTable
      | none => []) (tablesToMap ts ++ [(formatTableName t, t)]) = [] := by
    rw [concatMapD_append]
    have h1 : concatMapD (fun p =>
        match lookupA p.1 (tablesToMap ts) with
        | some tgtTable => compareTableStructure opts p.2 tgtTable
        | none => []) (tablesToMap ts) = [] := by
      apply concatMapD_eq_nil
      intro p hp
      have h : lookupA p.1 (tablesToMap ts) = some p.2 :=
        lookupA_of_mem_nodup
          (show (keysA (tablesToMap ts)).Nodup from nodup_keysA_toMapA _ _)
          (by simpa using hp)
      rw [h]
      exact compareTableStructure_self opts p.2
    have h2 : concatMapD (fun p =>
        match lookupA p.1 (tablesToMap ts) with
        | some tgtTable => compareTableStructure opts p.2 tgtTable
        | none => []) [(formatTableName t, t)] = [] := by
      have hl : lookupA (formatTableName t) (tablesToMap ts) = none :=
        lookupA_eq_none_of_not_mem hnotin
      simp [concatMapD, hl]
    rw [h1, h2]
    rfl
  rw [hmatch]
  rfl

/-- With one extra table on the target side and a fresh name, compareTables
yields exactly the one Added record for it. -/
theorem compareTables_extra_added (opts : DiffOptions) (ts : List Table) (t : Table)
    (hfresh : ∀ t' ∈ ts, formatTableName t' ≠ formatTableName t) :
    compareTables opts ts (ts ++ [t]) =
      [{ Type' := DiffAdded, Category := DiffCategoryTable,
         ObjectName := formatTableName t,
         Description := "Table [" ++ formatTableName t ++
           "] exists in target but not in source",
         MigrationSQL := "DROP TABLE " ++ formatTableName t ++ ";" }] := by
  have hnotin : formatTableName t ∉ keysA (tablesToMap ts) := by
    rw [show keysA (tablesToMap ts) = keysA (toMapA formatTableName ts) from rfl]
    rw [mem_keysA_toMapA]
    intro hmem
    obtain ⟨t', ht', heq⟩ := List.mem_map.mp hmem
    exact hfresh t' ht' heq
  have hmap : tablesToMap (ts ++ [t]) = tablesToMap ts ++ [(formatTableName t, t)] :=
    toMapA_append_single formatTableName ts t (by
      intro hmem
      obtain ⟨t', ht', heq⟩ := List.mem_map.mp hmem
      exact hfresh t' ht' heq)
  unfold compareTables
  rw [hmap]
  have hremNil : collectD (fun p =>
      if (lookupA p.1 (tablesToMap ts ++ [(formatTableName t, t)])).isSome = true then none
      else some
        ({ Type' := DiffRemoved, Category := DiffCategoryTable, ObjectName := p.1,
           Description := "Table [" ++ p.1 ++ "] exists in source but not in target",
           MigrationSQL := "CREATE TABLE " ++ p.1 ++
             " (\n    -- Copy structure from source\n)" } : Difference)) (tablesToMap ts) = [] := by
    apply collectD_eq_nil
    intro p hp
    have h : (lookupA p.1 (tablesToMap ts)).isSome = true :=
      lookupA_isSome_of_mem (v := p.2) (by simpa using hp)
    rw [lookupA_append_of_isSome _ h]
    simp [h]
  rw [hremNil]
  rw [collectD_append]
  have haddNil : collectD (fun p =>
      if (lookupA p.1 (tablesToMap ts)).isSome = true then none
      else some
        ({ Type' := DiffAdded, Category := DiffCategoryTable, ObjectName := p.1,
           Description := "Table [" ++ p.1 ++ "] exists in target but not in source",
           MigrationSQL := "DROP TABLE " ++ formatTableName p.2 ++ ";" } : Difference))
      (tablesToMap ts) = [] := by
    apply collectD_eq_nil
    intro p hp
    have h : (lookupA p.1 (tablesToMap ts)).isSome = true :=
      lookupA_isSome_of_mem (v := p.2) (by simpa using hp)
    simp [h]
  rw [haddNil]
  have haddOne : collectD (fun p =>
      if (lookupA p.1 (tablesToMap ts)).isSome = true then none
      else some
        ({ Type' := DiffAdded, Category := DiffCategoryTable, ObjectName := p.1,
           Description := "Table [" ++ p.1 ++ "] exists in target but not in source",
           MigrationSQL := "DROP TABLE " ++ formatTableName p.2 ++ ";" } : Difference))
      [(formatTableName t, t)] =
      [{ Type' := DiffAdded, Category := DiffCategoryTable,
         ObjectName := formatTableName t,
         Description := "Table [" ++ formatTableName t ++
           "] exists in target but not in source",
         MigrationSQL := "DROP TABLE " ++ formatTableName t ++ ";" }] := by
    have hl : lookupA (formatTableName t) (tablesToMap ts) = none :=
      lookupA_eq_none_of_not_mem hnotin
    simp [collectD, hl]
  rw [haddOne]
  have hmatch : concatMapD (fun p =>
      match lookupA p.1 (tablesToMap ts ++ [(formatTableName t, t)]) with
      | some tgtTable => compareTableStructure opts p.2 tgtTable
      | none => []) (tablesToMap ts) = [] := by
    apply concatMapD_eq_nil
    intro p hp
    have h : lookupA p.1 (tablesToMap ts) = some p.2 :=
      lookupA_of_mem_nodup
        (show (keysA (tablesToMap ts)).Nodup from nodup_keysA_toMapA _ _)
        (by simpa using hp)
    rw [lookupA_append_of_isSome _ (by rw [h]; rfl), h]
    exact compareTableStructure_self opts p.2
  rw [hmatch]
  rfl

/-- C2 (amended): for schemas differing only by one table present in the
source but absent in the target, with a fresh qualified name, Compare
yields exactly one Removed difference and the swapped call exactly one
Added difference; object name and category agree, while the descriptions
and migration fragments state the same fact from opposite directions and
are not textually identical. -/
theorem claim2_kind_inversion (opts : DiffOptions) (hT : opts.IncludeTables = true)
    (dbA dbB : String) (scs : List Schema) (ts : List Table) (t : Table)
    (hfresh : ∀ t' ∈ ts, formatTableName t' ≠ formatTableName t)
    (vs : List View) (ps : List StoredProcedure) (fs : List Function)
    (trs : List Trigger) :
    (Compare opts ⟨dbA, scs, ts ++ [t], vs, ps, fs, trs⟩
        ⟨dbB, scs, ts, vs, ps, fs, trs⟩).Differences =
      [{ Type' := DiffRemoved, Category := DiffCategoryTable,
         ObjectName := formatTableName t,
         Description := "Table [" ++ formatTableName t ++
           "] exists in source but not in target",
         MigrationSQL := "CREATE TABLE " ++ formatTableName t ++
           " (\n    -- Copy structure from source\n)" }] ∧
    (Compare opts ⟨dbB, scs, ts, vs, ps, fs, trs⟩
        ⟨dbA, scs, ts ++ [t], vs, ps, fs, trs⟩).Differences =
      [{ Type' := DiffAdded, Category := DiffCategoryTable,
         ObjectName := formatTableName t,
         Description := "Table [" ++ formatTableName t ++
           "] exists in target but not in source",
         MigrationSQL := "DROP TABLE " ++ formatTableName t ++ ";" }] := by
  constructor <;>
  · show compareAll _ _ _ = _
    unfold compareAll
    simp [hT, compareViews_self, compareProcedures_self, compareFunctions_self,
      compareTriggers_self, compareTables_extra_removed opts ts t hfresh,
      compareTables_extra_added opts ts t hfresh]

/-!
Concrete example schemas used to separate the report's actual sectioning
from the per-category grouping the specification asserts, and to compare
the two directions of a one-object difference.
-/

def exCol : Column := { Name := "A", DataType := "INT", IsNullable := true }
def exColNN : Column := { exCol with IsNullable := false }
def exIdx : Index := { Name := "IX1", IsUnique := true, Columns := [{ Name := "A" }] }
def exIdxNU : Index := { exIdx with IsUnique := false }
def exT1 : Table :=
  { SchemaName := "dbo", Name := "T1", Columns := [exCol], Indexes := [exIdx] }
def exT1x : Table := { exT1 with Columns := [exColNN], Indexes := [exIdxNU] }
def exT2 : Table := { SchemaName := "dbo", Name := "T2", Columns := [exCol] }
def exT2x : Table := { exT2 with Columns := [exColNN] }
def exSource : DatabaseSchema := { DatabaseName := "dbA", Tables := [exT1, exT2] }
def exTarget : DatabaseSchema := { DatabaseName := "dbB", Tables := [exT1x, exT2x] }

def exExtra : Table := { SchemaName := "dbo", Name := "Extra", Columns := [exCol] }
def exOnly : DatabaseSchema := { DatabaseName := "dbA", Tables := [exExtra] }
def exEmpty : DatabaseSchema := { DatabaseName := "dbB" }

/-- Report shape asserted by C1, modelled from the claim's words: the
header lines, then for each category of the fixed order having at least
one difference, exactly one contiguous section with one line per
difference of that category. -/
def printGitStyleGrouped (r : DiffResult) : String :=
  "diff --sqlpulse a/" ++ r.SourceDatabase ++ " b/" ++ r.TargetDatabase ++ "\n" ++
  "--- a/" ++ r.SourceDatabase ++ "\n" ++
  "+++ b/" ++ r.TargetDatabase ++ "\n" ++
  "\n" ++
  String.join ((categoriesOrder.filter
      (fun c => !(r.FilterByCategory c).isEmpty)).map
    (fun c => "\n@@ " ++ c ++ " @@\n" ++ chunkLines (r.FilterByCategory c)))

/-- C1 counterexample: on this Compare output the report does not have
the grouped one-section-per-category shape the claim asserts: the COLUMN
differences of the two matched tables are separated by an INDEX
difference, so the COLUMN category opens two sections. -/
theorem claim1_counterexample :
    (Compare DefaultDiffOptions exSource exTarget).PrintGitStyle ≠
      printGitStyleGrouped (Compare DefaultDiffOptions exSource exTarget) := by
  decide

/-- C2 counterexample: with one extra table in one schema, the two Compare
directions agree on object name and category and invert the kind, but the
descriptions are different sentences, refuting the claim that the
description content is identical. -/
theorem claim2_counterexample :
    (Compare DefaultDiffOptions exOnly exEmpty).Differences.map (fun d => d.Type') =
        [DiffRemoved] ∧
      (Compare DefaultDiffOptions exEmpty exOnly).Differences.map (fun d => d.Type') =
        [DiffAdded] ∧
      (Compare DefaultDiffOptions exOnly exEmpty).Differences.map
          (fun d => d.ObjectName) =
        (Compare DefaultDiffOptions exEmpty exOnly).Differences.map
          (fun d => d.ObjectName) ∧
      (Compare DefaultDiffOptions exOnly exEmpty).Differences.map
          (fun d => d.Category) =
        (Compare DefaultDiffOptions exEmpty exOnly).Differences.map
          (fun d => d.Category) ∧
      (Compare DefaultDiffOptions exOnly exEmpty).Differences.map
          (fun d => d.Description) ≠
        (Compare DefaultDiffOptions exEmpty exOnly).Differences.map
          (fun d => d.Description) := by
  decide

theorem concatMapD_single {α β : Type} (f : α → List β) (l₁ l₂ : List α) (x : α)
    (h₁ : ∀ y ∈ l₁, f y = []) (h₂ : ∀ y ∈ l₂, f y = []) :
    concatMapD f (l₁ ++ x :: l₂) = f x := by
  rw [concatMapD_append, concatMapD_eq_nil f l₁ h₁]
  show [] ++ concatMapD f (x :: l₂) = f x
  simp only [concatMapD, concatMapD_eq_nil f l₂ h₂]
  simp

/-- Comparison of two single-table schemas whose tables share their
qualified name reduces to the structural comparison of the two tables. -/
theorem compare_single_table (opts : DiffOptions) (hT : opts.IncludeTables = true)
    (db1 db2 : String) (scs : List Schema) (vs : List View)
    (ps : List StoredProcedure) (fs : List Function) (trs : List Trigger)
    (t1 t2 : Table) (hs : t2.SchemaName = t1.SchemaName) (hn : t2.Name = t1.Name) :
    (Compare opts ⟨db1, scs, [t1], vs, ps, fs, trs⟩
        ⟨db2, scs, [t2], vs, ps, fs, trs⟩).Differences =
      compareTableStructure opts t1 t2 := by
  have hk : formatTableName t2 = formatTableName t1 := by
    unfold formatTableName
    rw [hs, hn]
  show compareAll _ _ _ = _
  unfold compareAll
  simp only [hT, if_true, compareViews_self, compareProcedures_self,
    compareFunctions_self, compareTriggers_self, ite_self, List.append_nil]
  show compareTables opts [t1] [t2] = compareTableStructure opts t1 t2
  unfold compareTables tablesToMap
  simp [toMapA, insertA, collectD, concatMapD, lookupA, hk]

/-- Column collections that agree except at one matched position compare
to exactly the property comparison of the changed column pair. -/
theorem compareColumns_single_change (opts : DiffOptions) (tableName : String)
    (cs₁ cs₂ : List Column) (c c' : Column) (hname : c'.Name = c.Name)
    (hnd : ((cs₁ ++ c :: cs₂).map Column.Name).Nodup) :
    compareColumns opts tableName (cs₁ ++ c :: cs₂) (cs₁ ++ c' :: cs₂) =
      compareColumnDetails opts tableName c c' := by
  have hnames : (cs₁ ++ c' :: cs₂).map Column.Name =
      (cs₁ ++ c :: cs₂).map Column.Name := by
    simp [hname]
  have hndt : ((cs₁ ++ c' :: cs₂).map Column.Name).Nodup := by
    rw [hnames]; exact hnd
  have hsrc : columnsToMap (cs₁ ++ c :: cs₂) =
      (cs₁ ++ c :: cs₂).map (fun x => (x.Name, x)) := toMapA_eq_pairs _ _ hnd
  have htgt : columnsToMap (cs₁ ++ c' :: cs₂) =
      (cs₁ ++ c' :: cs₂).map (fun x => (x.Name, x)) := toMapA_eq_pairs _ _ hndt
  have hkeysS : keysA (columnsToMap (cs₁ ++ c :: cs₂)) =
      (cs₁ ++ c :: cs₂).map Column.Name := by
    rw [hsrc]
    simp [keysA, List.map_map]
    rfl
  have hkeysT : keysA (columnsToMap (cs₁ ++ c' :: cs₂)) =
      (cs₁ ++ c :: cs₂).map Column.Name := by
    rw [htgt]
    rw [show keysA ((cs₁ ++ c' :: cs₂).map fun x => (x.Name, x)) =
      (cs₁ ++ c' :: cs₂).map Column.Name by simp [keysA, List.map_map]; rfl]
    exact hnames
  have hndkT : (keysA (columnsToMap (cs₁ ++ c' :: cs₂))).Nodup := nodup_keysA_toMapA _ _
  unfold compareColumns
  have hrem : collectD (fun p =>
      if (lookupA p.1 (columnsToMap (cs₁ ++ c' :: cs₂))).isSome = true then none
      else some
        ({ Type' := DiffRemoved, Category := DiffCategoryColumn,
           ObjectName := tableName ++ "." ++ p.1,
           Description := "Column [" ++ p.1 ++ "] missing in target",
           MigrationSQL := "ALTER TABLE " ++ tableName ++ " ADD " ++ p.2.GenerateSQL ++
             ";" } : Difference)) (columnsToMap (cs₁ ++ c :: cs₂)) = [] := by
    apply collectD_eq_nil
    intro p hp
    have h1 : p.1 ∈ keysA (columnsToMap (cs₁ ++ c :: cs₂)) :=
      List.mem_map_of_mem Prod.fst hp
    have h2 : (lookupA p.1 (columnsToMap (cs₁ ++ c' :: cs₂))).isSome = true := by
      rw [lookupA_isSome_iff, hkeysT]
      rw [hkeysS] at h1
      exact h1
    simp [h2]
  rw [hrem]
  have hadd : collectD (fun p =>
      if (lookupA p.1 (columnsToMap (cs₁ ++ c :: cs₂))).isSome = true then none
      else some
        ({ Type' := DiffAdded, Category := DiffCategoryColumn,
           ObjectName := tableName ++ "." ++ p.1,
           Description := "Column [" ++ p.1 ++ "] exists only in target",
           MigrationSQL := "ALTER TABLE " ++ tableName ++ " DROP COLUMN [" ++ p.1 ++
             "];" } : Difference)) (columnsToMap (cs₁ ++ c' :: cs₂)) = [] := by
    apply collectD_eq_nil
    intro p hp
    have h1 : p.1 ∈ keysA (columnsToMap (cs₁ ++ c' :: cs₂)) :=
      List.mem_map_of_mem Prod.fst hp
    have h2 : (lookupA p.1 (columnsToMap (cs₁ ++ c :: cs₂))).isSome = true := by
      rw [lookupA_isSome_iff, hkeysS]
      rw [hkeysT] at h1
      exact h1
    simp [h2]
  rw [hadd]
  have hmemP : ∀ v ∈ cs₁ ++ c' :: cs₂,
      lookupA v.Name (columnsToMap (cs₁ ++ c' :: cs₂)) = some v := by
    intro v hv
    apply lookupA_of_mem_nodup hndkT
    rw [htgt]
    exact List.mem_map.mpr ⟨v, hv, rfl⟩
  have hmatch : concatMapD (fun p =>
      match lookupA p.1 (columnsToMap (cs₁ ++ c' :: cs₂)) with
      | some tgtCol => compareColumnDetails opts tableName p.2 tgtCol
      | none => []) (columnsToMap (cs₁ ++ c :: cs₂)) =
      compareColumnDetails opts tableName c c' := by
    rw [hsrc, List.map_append, List.map_cons]
    rw [concatMapD_single]
    · have hlc : lookupA c.Name (columnsToMap (cs₁ ++ c' :: cs₂)) = some c' := by
        rw [← hname]
        exact hmemP c' (by simp)
      rw [hlc]
    · intro y hy
      obtain ⟨v, hv, rfl⟩ := List.mem_map.mp hy
      have hl : lookupA v.Name (columnsToMap (cs₁ ++ c' :: cs₂)) = some v :=
        hmemP v (by simp [hv])
      rw [hl]
      exact compareColumnDetails_self opts tableName v
    · intro y hy
      obtain ⟨v, hv, rfl⟩ := List.mem_map.mp hy
      have hl : lookupA v.Name (columnsToMap (cs₁ ++ c' :: cs₂)) = some v :=
        hmemP v (by simp [hv])
      rw [hl]
      exact compareColumnDetails_self opts tableName v
  rw [hmatch]
  rfl

/-- C5: two otherwise-identical tables whose only change is the negation
of one column's IsNullable flag compare to exactly one Modified
difference with property Nullability, NULL and NOT NULL values matching
the respective columns, and nothing else. -/
theorem claim5_nullability_isolation (opts : DiffOptions)
    (hT : opts.IncludeTables = true) (db1 db2 : String) (scs : List Schema)
    (vs : List View) (ps : List StoredProcedure) (fs : List Function)
    (trs : List Trigger) (t : Table) (cs₁ cs₂ : List Column) (c : Column)
    (hcols : t.Columns = cs₁ ++ c :: cs₂)
    (hnd : (t.Columns.map Column.Name).Nodup) :
    (Compare opts ⟨db1, scs, [t], vs, ps, fs, trs⟩
        ⟨db2, scs,
          [{ t with Columns := cs₁ ++ { c with IsNullable := !c.IsNullable } :: cs₂ }],
          vs, ps, fs, trs⟩).Differences =
      [{ Type' := DiffModified, Category := DiffCategoryColumn,
         ObjectName := formatTableName t ++ "." ++ c.Name,
         PropertyName := "Nullability",
         SourceValue := if c.IsNullable then "NULL" else "NOT NULL",
         TargetValue := if c.IsNullable then "NOT NULL" else "NULL",
         Description := "Nullability differs: " ++
           (if c.IsNullable then "NULL" else "NOT NULL") ++ " vs " ++
           (if c.IsNullable then "NOT NULL" else "NULL") }] := by
  rw [compare_single_table opts hT db1 db2 scs vs ps fs trs t
    ({ t with Columns := cs₁ ++ { c with IsNullable := !c.IsNullable } :: cs₂ })
    rfl rfl]
  have hstruct : compareTableStructure opts t
      ({ t with Columns := cs₁ ++ { c with IsNullable := !c.IsNullable } :: cs₂ }) =
      compareColumns opts (formatTableName t) t.Columns
        (cs₁ ++ { c with IsNullable := !c.IsNullable } :: cs₂) := by
    simp [compareTableStructure, compareIndexes_self, compareForeignKeys_self,
      compareCheckConstraints_self, comparePrimaryKeys_self]
  rw [hstruct, hcols,
    compareColumns_single_change opts (formatTableName t) cs₁ cs₂ c
      ({ c with IsNullable := !c.IsNullable }) rfl (hcols ▸ hnd)]
  cases hb : c.IsNullable <;> simp [compareColumnDetails, hb]

/-- C6: two otherwise-identical tables whose only change is one column's
collation compare to zero differences when IgnoreCollation is set, and to
exactly one Modified difference with property Collation otherwise. -/
theorem claim6_collation_suppression (optsI optsC : DiffOptions)
    (hTI : optsI.IncludeTables = true) (hTC : optsC.IncludeTables = true)
    (hI : optsI.IgnoreCollation = true) (hC : optsC.IgnoreCollation = false)
    (db1 db2 : String) (scs : List Schema) (vs : List View)
    (ps : List StoredProcedure) (fs : List Function) (trs : List Trigger)
    (t : Table) (cs₁ cs₂ : List Column) (c : Column) (x : String)
    (hx : x ≠ c.Collation) (hcols : t.Columns = cs₁ ++ c :: cs₂)
    (hnd : (t.Columns.map Column.Name).Nodup) :
    (Compare optsI ⟨db1, scs, [t], vs, ps, fs, trs⟩
        ⟨db2, scs, [{ t with Columns := cs₁ ++ { c with Collation := x } :: cs₂ }],
          vs, ps, fs, trs⟩).Differences = [] ∧
    (Compare optsC ⟨db1, scs, [t], vs, ps, fs, trs⟩
        ⟨db2, scs, [{ t with Columns := cs₁ ++ { c with Collation := x } :: cs₂ }],
          vs, ps, fs, trs⟩).Differences =
      [{ Type' := DiffModified, Category := DiffCategoryColumn,
         ObjectName := formatTableName t ++ "." ++ c.Name,
         PropertyName := "Collation", SourceValue := c.Collation, TargetValue := x,
         Description := "Collation differs: " ++ c.Collation ++ " vs " ++ x }] := by
  constructor
  · rw [compare_single_table optsI hTI db1 db2 scs vs ps fs trs t
      ({ t with Columns := cs₁ ++ { c with Collation := x } :: cs₂ }) rfl rfl]
    have hstruct : compareTableStructure optsI t
        ({ t with Columns := cs₁ ++ { c with Collation := x } :: cs₂ }) =
        compareColumns optsI (formatTableName t) t.Columns
          (cs₁ ++ { c with Collation := x } :: cs₂) := by
      simp [compareTableStructure, compareIndexes_self, compareForeignKeys_self,
        compareCheckConstraints_self, comparePrimaryKeys_self]
    rw [hstruct, hcols,
      compareColumns_single_change optsI (formatTableName t) cs₁ cs₂ c
        ({ c with Collation := x }) rfl (hcols ▸ hnd)]
    simp [compareColumnDetails, hI]
  · rw [compare_single_table optsC hTC db1 db2 scs vs ps fs trs t
      ({ t with Columns := cs₁ ++ { c with Collation := x } :: cs₂ }) rfl rfl]
    have hstruct : compareTableStructure optsC t
        ({ t with Columns := cs₁ ++ { c with Collation := x } :: cs₂ }) =
        compareColumns optsC (formatTableName t) t.Columns
          (cs₁ ++ { c with Collation := x } :: cs₂) := by
      simp [compareTableStructure, compareIndexes_self, compareForeignKeys_self,
        compareCheckConstraints_self, comparePrimaryKeys_self]
    rw [hstruct, hcols,
      compareColumns_single_change optsC (formatTableName t) cs₁ cs₂ c
        ({ c with Collation := x }) rfl (hcols ▸ hnd)]
    simp [compareColumnDetails, hC, Ne.symm hx]

/-!
Tokenization view of whitespace normalization: a string's maximal
non-whitespace runs determine its normalized form, so two definitions
differing only in whitespace run lengths normalize identically.
-/

/-- Maximal runs of non-whitespace characters (whitespace in the sense of
the \s class used by normalizeWhitespace), in order. -/
def tokens (l : List Char) : List (List Char) :=
  match l with
  | [] => []
  | c :: rest =>
    if isWS c then tokens rest
    else (c :: rest.takeWhile (fun x => !isWS x)) :: tokens (rest.dropWhile (fun x => !isWS x))
termination_by l.length
decreasing_by
  · simp
  · have h := (List.dropWhile_sublist (l := rest) (fun x => !isWS x)).length_le
    simp
    omega

/-- Tokens joined by single spaces. -/
def joinTokens : List (List Char) → List Char
  | [] => []
  | [t] => t
  | t :: ts => t ++ ' ' :: joinTokens ts

theorem joinTokens_cons_head (a : Char) (t : List Char) (ts : List (List Char)) :
    joinTokens ((a :: t) :: ts) = a :: joinTokens (t :: ts) := by
  cases ts <;> simp [joinTokens]

theorem tokens_nil : tokens [] = [] := by simp [tokens]

theorem tokens_cons_ws (c : Char) (rest : List Char) (hc : isWS c = true) :
    tokens (c :: rest) = tokens rest := by
  rw [tokens]
  simp [hc]

theorem tokens_cons_nws (c : Char) (rest : List Char) (hc : isWS c = false) :
    tokens (c :: rest) =
      (c :: rest.takeWhile (fun x => !isWS x)) ::
        tokens (rest.dropWhile (fun x => !isWS x)) := by
  rw [tokens]
  simp [hc]

theorem collapseWS_nil (b : Bool) : collapseWS b [] = [] := rfl

theorem collapseWS_false_ws (c : Char) (rest : List Char) (hc : isWS c = true) :
    collapseWS false (c :: rest) = ' ' :: collapseWS true rest := by
  simp [collapseWS, hc]

theorem collapseWS_true_ws (c : Char) (rest : List Char) (hc : isWS c = true) :
    collapseWS true (c :: rest) = collapseWS true rest := by
  simp [collapseWS, hc]

theorem collapseWS_nws (b : Bool) (c : Char) (rest : List Char) (hc : isWS c = false) :
    collapseWS b (c :: rest) = c :: collapseWS false rest := by
  simp [collapseWS, hc]

theorem collapseWS_true_eq (l : List Char) :
    collapseWS true l = collapseWS false (l.dropWhile isWS) := by
  induction l with
  | nil => rfl
  | cons c rest ih =>
    by_cases hc : isWS c
    · rw [List.dropWhile_cons, if_pos hc, collapseWS_true_ws c rest hc, ih]
    · rw [List.dropWhile_cons, if_neg hc]
      rw [collapseWS_nws true c rest (by simpa using hc),
        collapseWS_nws false c rest (by simpa using hc)]

theorem tokens_dropWhile (l : List Char) :
    tokens (l.dropWhile isWS) = tokens l := by
  induction l with
  | nil => rfl
  | cons c rest ih =>
    by_cases hc : isWS c
    · rw [List.dropWhile_cons, if_pos hc, ih, tokens_cons_ws c rest hc]
    · rw [List.dropWhile_cons, if_neg hc]

theorem head_dropWhile_not_isWS (l : List Char) :
    ∀ c ∈ (l.dropWhile isWS).head?, isWS c = false := by
  induction l with
  | nil => intro c hc; simp at hc
  | cons a rest ih =>
    by_cases ha : isWS a
    · rw [List.dropWhile_cons, if_pos ha]
      exact ih
    · rw [List.dropWhile_cons, if_neg ha]
      intro c hc
      simp at hc
      subst hc
      simpa using ha

theorem collapse_headNonWS : ∀ n : Nat, ∀ l : List Char, l.length ≤ n →
    (∀ c ∈ l.head?, isWS c = false) → ∃ b : Bool,
      collapseWS false l = joinTokens (tokens l) ++ (if b then [' '] else []) := by
  intro n
  induction n with
  | zero =>
    intro l hl _
    have hnil : l = [] := List.length_eq_zero.mp (Nat.le_zero.mp hl)
    subst hnil
    exact ⟨false, by simp [tokens_nil, joinTokens, collapseWS_nil]⟩
  | succ n ih =>
    intro l hl hhead
    match l with
    | [] => exact ⟨false, by simp [tokens_nil, joinTokens, collapseWS_nil]⟩
    | a :: rest =>
      have ha : isWS a = false := hhead a rfl
      match rest with
      | [] =>
        refine ⟨false, ?_⟩
        rw [collapseWS_nws false a [] ha, collapseWS_nil, tokens_cons_nws a [] ha]
        simp [tokens_nil, joinTokens]
      | r :: rs =>
        by_cases hr : isWS r
        · have hcoll : collapseWS false (a :: r :: rs) =
              a :: ' ' :: collapseWS false (rs.dropWhile isWS) := by
            rw [collapseWS_nws false a _ ha, collapseWS_false_ws r rs hr,
              collapseWS_true_eq]
          have htoks : tokens (a :: r :: rs) = [a] :: tokens (rs.dropWhile isWS) := by
            rw [tokens_cons_nws a _ ha]
            rw [show (r :: rs).takeWhile (fun x => !isWS x) = [] by
              simp [List.takeWhile_cons, hr]]
            rw [show (r :: rs).dropWhile (fun x => !isWS x) = r :: rs by
              simp [List.dropWhile_cons, hr]]
            rw [tokens_cons_ws r rs hr, ← tokens_dropWhile rs]
          have hlen : (rs.dropWhile isWS).length ≤ n := by
            have h1 := (List.dropWhile_sublist (l := rs) isWS).length_le
            simp at hl
            omega
          cases hd : rs.dropWhile isWS with
          | nil =>
            refine ⟨true, ?_⟩
            rw [hcoll, htoks, hd, collapseWS_nil, tokens_nil]
            simp [joinTokens]
          | cons e es =>
            have he : isWS e = false := by
              have hh := head_dropWhile_not_isWS rs
              rw [hd] at hh
              exact hh e rfl
            have hlen2 : (e :: es).length ≤ n := hd ▸ hlen
            obtain ⟨b, hb⟩ := ih (e :: es) hlen2
              (by intro c hc; simp at hc; subst hc; exact he)
            refine ⟨b, ?_⟩
            rw [hcoll, htoks, hd, hb, tokens_cons_nws e es he]
            simp [joinTokens, List.append_assoc]
        · have hrb : isWS r = false := by simpa using hr
          have hcoll : collapseWS false (a :: r :: rs) =
              a :: collapseWS false (r :: rs) := collapseWS_nws false a _ ha
          have htake : (r :: rs).takeWhile (fun x => !isWS x) =
              r :: rs.takeWhile (fun x => !isWS x) := by
            simp [List.takeWhile_cons, hrb]
          have hdrop : (r :: rs).dropWhile (fun x => !isWS x) =
              rs.dropWhile (fun x => !isWS x) := by
            simp [List.dropWhile_cons, hrb]
          obtain ⟨b, hb⟩ := ih (r :: rs) (by simp at hl ⊢; omega)
            (by intro c hc; simp at hc; subst hc; exact hrb)
          refine ⟨b, ?_⟩
          rw [hcoll, hb, tokens_cons_nws a _ ha, htake, hdrop]
          rw [show (a :: r :: rs.takeWhile fun x => !isWS x) =
            a :: (r :: rs.takeWhile fun x => !isWS x) from rfl]
          rw [joinTokens_cons_head, ← tokens_cons_nws r rs hrb]
          simp

theorem collapse_decomp (l : List Char) : ∃ b1 b2 : Bool,
    collapseWS false l = (if b1 then [' '] else []) ++
      (joinTokens (tokens l) ++ (if b2 then [' '] else [])) := by
  cases l with
  | nil => exact ⟨false, false, by simp [tokens_nil, joinTokens, collapseWS_nil]⟩
  | cons a rest =>
    by_cases ha : isWS a
    · have hcoll : collapseWS false (a :: rest) =
          ' ' :: collapseWS false (rest.dropWhile isWS) := by
        rw [collapseWS_false_ws a rest ha, collapseWS_true_eq]
      have htoks : tokens (a :: rest) = tokens (rest.dropWhile isWS) := by
        rw [tokens_cons_ws a rest ha, tokens_dropWhile]
      obtain ⟨b, hb⟩ := collapse_headNonWS (rest.dropWhile isWS).length
        (rest.dropWhile isWS) (Nat.le_refl _) (head_dropWhile_not_isWS rest)
      exact ⟨true, b, by rw [hcoll, htoks, hb]; simp⟩
    · obtain ⟨b, hb⟩ := collapse_headNonWS (a :: rest).length (a :: rest)
        (Nat.le_refl _) (by intro c hc; simp at hc; subst hc; simpa using ha)
      exact ⟨false, b, by rw [hb]; simp⟩

theorem trimLeftWS_cons_space (x : List Char) : trimLeftWS (' ' :: x) = trimLeftWS x := by
  unfold trimLeftWS
  rw [List.dropWhile_cons, if_pos (by decide)]

theorem trimLeftWS_cond_append (b : Bool) (x : List Char) :
    trimLeftWS ((if b then [' '] else []) ++ x) = trimLeftWS x := by
  cases b
  · simp
  · simpa using trimLeftWS_cons_space x

theorem trimLeftWS_append (x y : List Char) :
    trimLeftWS (x ++ y) =
      if trimLeftWS x = [] then trimLeftWS y else trimLeftWS x ++ y := by
  induction x with
  | nil => simp [trimLeftWS]
  | cons a x' ih =>
    by_cases ha : unicodeIsSpace a
    · rw [show (a :: x') ++ y = a :: (x' ++ y) from rfl]
      unfold trimLeftWS
      rw [List.dropWhile_cons, if_pos ha, List.dropWhile_cons, if_pos ha]
      exact ih
    · rw [show (a :: x') ++ y = a :: (x' ++ y) from rfl]
      unfold trimLeftWS
      rw [List.dropWhile_cons, if_neg ha, List.dropWhile_cons, if_neg ha]
      simp

theorem trimRightWS_append_space (y : List Char) :
    trimRightWS (y ++ [' ']) = trimRightWS y := by
  unfold trimRightWS
  rw [List.reverse_append]
  simpa using congrArg List.reverse (trimLeftWS_cons_space y.reverse)

theorem trimRightWS_cond_append (b : Bool) (y : List Char) :
    trimRightWS (y ++ (if b then [' '] else [])) = trimRightWS y := by
  cases b
  · simp
  · simpa using trimRightWS_append_space y

/-- The normalized form of a string depends only on its token list. -/
theorem normalize_eq_tokens (s : String) :
    normalizeWhitespace s = ⟨trimSpace (joinTokens (tokens s.data))⟩ := by
  unfold normalizeWhitespace
  congr 1
  obtain ⟨b1, b2, hb⟩ := collapse_decomp s.data
  rw [hb]
  unfold trimSpace
  rw [trimLeftWS_cond_append]
  rw [trimLeftWS_append]
  split_ifs with hJ hb2 hb2
  · rw [hJ]
    rfl
  · rw [hJ]
    rfl
  · exact trimRightWS_append_space _
  · simp

/-- C7: view definitions with the same token structure, differing only in
whitespace run lengths, are equal under definitionsEqual exactly when
IgnoreWhitespace is set; the view comparison then reports nothing, and
with the option off it reports exactly one Modified difference. -/
theorem claim7_whitespace (optsT optsF : DiffOptions)
    (hWT : optsT.IgnoreWhitespace = true) (hWF : optsF.IgnoreWhitespace = false)
    (sn n d1 d2 : String)
    (htok : tokens d1.data = tokens d2.data) (hne : d1 ≠ d2) :
    definitionsEqual optsT d1 d2 = true ∧
    definitionsEqual optsF d1 d2 = false ∧
    compareViews optsT [⟨sn, n, d1⟩] [⟨sn, n, d2⟩] = [] ∧
    compareViews optsF [⟨sn, n, d1⟩] [⟨sn, n, d2⟩] =
      [{ Type' := DiffModified, Category := DiffCategoryView,
         ObjectName := "[" ++ sn ++ "].[" ++ n ++ "]",
         Description := "View definition differs" }] := by
  have hnorm : normalizeWhitespace d1 = normalizeWhitespace d2 := by
    rw [normalize_eq_tokens, normalize_eq_tokens, htok]
  have hdefT : definitionsEqual optsT d1 d2 = true := by
    unfold definitionsEqual
    rw [hWT]
    simp [hnorm]
  have hdefF : definitionsEqual optsF d1 d2 = false := by
    unfold definitionsEqual
    rw [hWF]
    simp [hne]
  refine ⟨hdefT, hdefF, ?_, ?_⟩
  · unfold compareViews viewsToMap
    simp [toMapA, insertA, collectD, lookupA, hdefT]
  · unfold compareViews viewsToMap
    simp [toMapA, insertA, collectD, lookupA, hdefF]

/-- C8: for a non-computed column whose data type is one of the six
variable-length character or binary types, GenerateSQL appends (MAX) when
MaxLength is the unbounded sentinel -1, renders MaxLength divided by two
for the N-prefixed types, and renders MaxLength unchanged for the others;
the identity, nullability and default clauses follow as a suffix. -/
theorem claim8_length_rendering (c : Column) (hnc : c.IsComputed = false)
    (hty : toUpperGo c.DataType = "VARCHAR" ∨ toUpperGo c.DataType = "NVARCHAR" ∨
      toUpperGo c.DataType = "CHAR" ∨ toUpperGo c.DataType = "NCHAR" ∨
      toUpperGo c.DataType = "VARBINARY" ∨ toUpperGo c.DataType = "BINARY") :
    ∃ tail : String, c.GenerateSQL =
      "[" ++ c.Name ++ "] " ++ c.DataType ++
      (if c.MaxLength = -1 then "(MAX)"
       else "(" ++ toString (if hasPrefixGo (toUpperGo c.DataType) "N" then
           c.MaxLength.tdiv 2 else c.MaxLength) ++ ")") ++ tail := by
  refine ⟨(if c.IsIdentity then " IDENTITY(" ++ toString c.IdentitySeed ++ "," ++
      toString c.IdentityIncrement ++ ")" else "") ++
    ((if c.IsNullable then " NULL" else " NOT NULL") ++
    (if c.HasDefault ∧ c.DefaultValue ≠ "" then " DEFAULT " ++ c.DefaultValue
     else "")), ?_⟩
  simp only [Column.GenerateSQL, hnc, Bool.false_eq_true, if_false]
  have hswV : hasPrefixGo "VARCHAR" "N" = false := by decide
  have hswNV : hasPrefixGo "NVARCHAR" "N" = true := by decide
  have hswC : hasPrefixGo "CHAR" "N" = false := by decide
  have hswNC : hasPrefixGo "NCHAR" "N" = true := by decide
  have hswVB : hasPrefixGo "VARBINARY" "N" = false := by decide
  have hswB : hasPrefixGo "BINARY" "N" = false := by decide
  rcases hty with h | h | h | h | h | h
  · rw [h]
    rw [if_pos (show ("VARCHAR" : String) = "VARCHAR" ∨ "VARCHAR" = "NVARCHAR" ∨
      "VARCHAR" = "CHAR" ∨ "VARCHAR" = "NCHAR" ∨ "VARCHAR" = "VARBINARY" ∨
      "VARCHAR" = "BINARY" by simp)]
    rw [hswV]
    simp only [Bool.false_eq_true, eq_self_iff_true, if_false, if_true, ite_true,
      ite_false]
    split_ifs <;> (apply String.ext; simp)
  · rw [h]
    rw [if_pos (show ("NVARCHAR" : String) = "VARCHAR" ∨ "NVARCHAR" = "NVARCHAR" ∨
      "NVARCHAR" = "CHAR" ∨ "NVARCHAR" = "NCHAR" ∨ "NVARCHAR" = "VARBINARY" ∨
      "NVARCHAR" = "BINARY" by simp)]
    rw [hswNV]
    simp only [Bool.false_eq_true, eq_self_iff_true, if_false, if_true, ite_true,
      ite_false]
    split_ifs <;> (apply String.ext; simp)
  · rw [h]
    rw [if_pos (show ("CHAR" : String) = "VARCHAR" ∨ "CHAR" = "NVARCHAR" ∨
      "CHAR" = "CHAR" ∨ "CHAR" = "NCHAR" ∨ "CHAR" = "VARBINARY" ∨
      "CHAR" = "BINARY" by simp)]
    rw [hswC]
    simp only [Bool.false_eq_true, eq_self_iff_true, if_false, if_true, ite_true,
      ite_false]
    split_ifs <;> (apply String.ext; simp)
  · rw [h]
    rw [if_pos (show ("NCHAR" : String) = "VARCHAR" ∨ "NCHAR" = "NVARCHAR" ∨
      "NCHAR" = "CHAR" ∨ "NCHAR" = "NCHAR" ∨ "NCHAR" = "VARBINARY" ∨
      "NCHAR" = "BINARY" by simp)]
    rw [hswNC]
    simp only [Bool.false_eq_true, eq_self_iff_true, if_false, if_true, ite_true,
      ite_false]
    split_ifs <;> (apply String.ext; simp)
  · rw [h]
    rw [if_pos (show ("VARBINARY" : String) = "VARCHAR" ∨ "VARBINARY" = "NVARCHAR" ∨
      "VARBINARY" = "CHAR" ∨ "VARBINARY" = "NCHAR" ∨ "VARBINARY" = "VARBINARY" ∨
      "VARBINARY" = "BINARY" by simp)]
    rw [hswVB]
    simp only [Bool.false_eq_true, eq_self_iff_true, if_false, if_true, ite_true,
      ite_false]
    split_ifs <;> (apply String.ext; simp)
  · rw [h]
    rw [if_pos (show ("BINARY" : String) = "VARCHAR" ∨ "BINARY" = "NVARCHAR" ∨
      "BINARY" = "CHAR" ∨ "BINARY" = "NCHAR" ∨ "BINARY" = "VARBINARY" ∨
      "BINARY" = "BINARY" by simp)]
    rw [hswB]
    simp only [Bool.false_eq_true, eq_self_iff_true, if_false, if_true, ite_true,
      ite_false]
    split_ifs <;> (apply String.ext; simp)

/-!
Concrete instantiations of the claims that carry hypotheses.
-/

def optsIgnoreColl : DiffOptions := { DefaultDiffOptions with IgnoreCollation := true }

def optsNoWS : DiffOptions := { DefaultDiffOptions with IgnoreWhitespace := false }

def exColNV : Column := { Name := "E", DataType := "nvarchar", MaxLength := 200 }

def exRemovedDiff : Difference :=
  { Type' := DiffRemoved, Category := DiffCategoryTable, ObjectName := "[dbo].[Extra]",
    Description := "Table [[dbo].[Extra]] exists in source but not in target",
    MigrationSQL := "CREATE TABLE [dbo].[Extra] (\n    -- Copy structure from source\n)" }

theorem claim2_kind_inversion_witness :
    (Compare DefaultDiffOptions ⟨"dbA", [], [] ++ [exExtra], [], [], [], []⟩
        ⟨"dbB", [], [], [], [], [], []⟩).Differences.length = 1 ∧
    (Compare DefaultDiffOptions ⟨"dbB", [], [], [], [], [], []⟩
        ⟨"dbA", [], [] ++ [exExtra], [], [], [], []⟩).Differences.length = 1 := by
  have h := claim2_kind_inversion DefaultDiffOptions rfl "dbA" "dbB" [] [] exExtra
    (by intro t' ht'; simp at ht') [] [] [] []
  rw [h.1, h.2]
  exact ⟨rfl, rfl⟩

theorem claim5_nullability_isolation_witness :
    (Compare DefaultDiffOptions ⟨"dbA", [], [exT2], [], [], [], []⟩
        ⟨"dbB", [],
          [{ exT2 with
              Columns := [] ++ { exCol with IsNullable := !exCol.IsNullable } :: [] }],
          [], [], [], []⟩).Differences.length = 1 := by
  rw [claim5_nullability_isolation DefaultDiffOptions rfl "dbA" "dbB" [] [] [] [] []
    exT2 [] [] exCol rfl (by decide)]
  rfl

theorem claim6_collation_suppression_witness :
    (Compare optsIgnoreColl ⟨"dbA", [], [exT2], [], [], [], []⟩
        ⟨"dbB", [],
          [{ exT2 with Columns := [] ++ { exCol with Collation := "X" } :: [] }],
          [], [], [], []⟩).Differences.length = 0 ∧
    (Compare DefaultDiffOptions ⟨"dbA", [], [exT2], [], [], [], []⟩
        ⟨"dbB", [],
          [{ exT2 with Columns := [] ++ { exCol with Collation := "X" } :: [] }],
          [], [], [], []⟩).Differences.length = 1 := by
  have h := claim6_collation_suppression optsIgnoreColl DefaultDiffOptions rfl rfl rfl rfl
    "dbA" "dbB" [] [] [] [] [] exT2 [] [] exCol "X" (by decide) rfl (by decide)
  rw [h.1, h.2]
  exact ⟨rfl, rfl⟩

theorem claim7_whitespace_witness :
    definitionsEqual DefaultDiffOptions "SELECT  1" "SELECT 1" = true ∧
    definitionsEqual optsNoWS "SELECT  1" "SELECT 1" = false := by
  have h := claim7_whitespace DefaultDiffOptions optsNoWS rfl rfl "dbo" "V1"
    "SELECT  1" "SELECT 1" (by simp [tokens, isWS]) (by decide)
  exact ⟨h.1, h.2.1⟩

theorem claim8_length_rendering_witness :
    ∃ tail : String, exColNV.GenerateSQL =
      "[" ++ exColNV.Name ++ "] " ++ exColNV.DataType ++
      (if exColNV.MaxLength = -1 then "(MAX)"
       else "(" ++ toString (if hasPrefixGo (toUpperGo exColNV.DataType) "N" then
           exColNV.MaxLength.tdiv 2 else exColNV.MaxLength) ++ ")") ++ tail :=
  claim8_length_rendering exColNV rfl (Or.inr (Or.inl (by decide)))

theorem claim9_no_schema_category_witness :
    exRemovedDiff.Category ≠ DiffCategorySchema ∧
      Compare DefaultDiffOptions { exOnly with Schemas := [] }
          { exEmpty with Schemas := [] } =
        Compare DefaultDiffOptions exOnly exEmpty :=
  claim9_no_schema_category DefaultDiffOptions exOnly exEmpty [] [] exRemovedDiff
    (by decide)

theorem claim10_no_migration_sql_witness :
    categoryBlock (Compare DefaultDiffOptions exOnly exEmpty) DiffCategoryView =
      (if (Compare DefaultDiffOptions exOnly exEmpty).FilterByCategory
          DiffCategoryView = [] then ""
       else "-- " ++ DiffCategoryView ++ " Changes\n" ++ "-- " ++
         "----------------------------------------" ++ "\n\n") :=
  (claim10_no_migration_sql DefaultDiffOptions exOnly exEmpty DiffCategoryView
    (Or.inl rfl)).2.2.2.2

end SQLPulse
